import Mathlib

/-!
# Gamefied-Learning: quiz grading, progress tracking and role gating

A shallow embedding of `server.js` (the Express handlers) and of the data that
`scripts/init_db.js` creates and seeds.

* The SQLite database is a record of four tables, each a list of rows in rowid
  order; a handler is a function from the database (and the request's session,
  route parameter and body) to an outcome and the database it leaves behind.
* The callbacks of one request are run in program order; nothing is modelled
  about interleavings with other requests or about statements that fail inside
  the engine.
* JavaScript numbers are modelled exactly where the handlers compute with them:
  `correct / total`, `* 100` and `Math.round` follow IEEE-754 binary64
  (round to nearest, ties to even), and `parseInt` follows ECMAScript.
* The column `xp` holds SQLite values with their storage class, and `xp + ?`
  follows the engine and the driver: a bound number is an INTEGER when it fits
  32 bits and a REAL otherwise, two INTEGERs add in 64 bits, anything else adds
  as doubles, and the column's INTEGER affinity takes an integral REAL back to
  an INTEGER where it fits.
* A route parameter `:subjectId` is the integer that SQLite's numeric affinity
  compares with the `subject_id` column.
-/

namespace GamefiedLearning

/-! ## Numbers -/

/-- A JavaScript number as the handlers produce it: an integer-valued double
(`int v` is the double whose value is `v`), an infinity, or NaN (which SQLite
stores as NULL). -/
inductive JSNum where
  | nan
  | inf (negative : Bool)
  | int (v : Int)
deriving DecidableEq, Repr

/-- JavaScript truthiness of a number: `0` and `NaN` are falsy. -/
def JSNum.truthy : JSNum → Bool
  | .nan => false
  | .int v => v != 0
  | .inf _ => true

/-- The expression `x || 0` on a number. -/
def JSNum.orZero (x : JSNum) : JSNum := if x.truthy then x else .int 0

/-- A non-negative binary64 value: `fin n` is the real number `n / 2 ^ 1074`
(every finite non-negative double is such a multiple of the smallest
subnormal), next to `+Infinity` and `NaN`. -/
inductive F64 where
  | nan
  | inf
  | fin (n : Nat)
deriving DecidableEq, Repr

/-- The number `1` in units of the smallest subnormal, `2 ^ (-1074)`. -/
def F64.one : Nat := 2 ^ 1074

/-- Floor of the binary logarithm, by halving (`fuel` bounds the halvings). -/
def log2Fuel : Nat → Nat → Nat
  | 0, _ => 0
  | fuel + 1, n => if 2 ≤ n then log2Fuel fuel (n / 2) + 1 else 0

/-- Floor of the binary logarithm of `n` (`0` for `n = 0`). -/
def ilog2 (n : Nat) : Nat := log2Fuel n n

/-- The integer nearest to `p / q`, a tie going to the even neighbour. -/
def roundHalfEven (p q : Nat) : Nat :=
  let d := p / q
  let r := p % q
  if 2 * r < q then d
  else if q < 2 * r then d + 1
  else if d % 2 = 0 then d else d + 1

/-- The binary64 value nearest to the real `p / q` units (`p / (q * 2 ^ 1074)`),
ties to even: the result is a multiple of `2 ^ k` units where `k` leaves a
53-bit significand (`k = 0` in the subnormal range); `2 ^ 1024` and above
overflow. -/
def F64.round (p q : Nat) : F64 :=
  let k := ilog2 (p / q) - 52
  let r := roundHalfEven p (q * 2 ^ k) * 2 ^ k
  if r < 2 ^ 1024 * F64.one then .fin r else .inf

/-- The number value of a natural number (exact below `2 ^ 53`). -/
def F64.ofNat (a : Nat) : F64 := F64.round (a * F64.one) 1

/-- The quotient `a / b` of two integer-valued numbers. -/
def F64.divNat (a b : Nat) : F64 :=
  if b = 0 then (if a = 0 then .nan else .inf) else F64.round (a * F64.one) b

/-- The product `x * y` of a number with an integer-valued one. -/
def F64.mulNat : F64 → Nat → F64
  | .fin n, y => F64.round (n * y) 1
  | .inf, y => if y = 0 then .nan else .inf
  | .nan, _ => .nan

/-- The function `Math.round`: the nearest integer, a tie going up. -/
def Math.round : F64 → F64
  | .fin n => .fin ((2 * n + F64.one) / (2 * F64.one) * F64.one)
  | x => x

/-- An integer-valued result (such as one of `Math.round`) as a `JSNum`. -/
def F64.toJSNum : F64 → JSNum
  | .fin n => .int (n / F64.one : Nat)
  | .inf => .inf false
  | .nan => .nan

/-! ## `parseInt` -/

/-- The code points of `StrWhiteSpaceChar` (WhiteSpace and LineTerminator). -/
def isStrWhiteSpaceChar (c : Char) : Bool :=
  let n := c.toNat
  n = 0x09 || n = 0x0A || n = 0x0B || n = 0x0C || n = 0x0D || n = 0x20 || n = 0xA0 ||
  n = 0x1680 || (0x2000 ≤ n && n ≤ 0x200A) || n = 0x2028 || n = 0x2029 || n = 0x202F ||
  n = 0x205F || n = 0x3000 || n = 0xFEFF

/-- The value of a digit or letter as a digit, if it is one. -/
def digitValue (c : Char) : Option Nat :=
  let n := c.toNat
  if 48 ≤ n ∧ n ≤ 57 then some (n - 48)
  else if 97 ≤ n ∧ n ≤ 122 then some (n - 87)
  else if 65 ≤ n ∧ n ≤ 90 then some (n - 55)
  else none

/-- The values of the longest prefix of radix-`r` digits. -/
def radixDigits (r : Nat) : List Char → List Nat
  | [] => []
  | c :: cs =>
    match digitValue c with
    | some d => if d < r then d :: radixDigits r cs else []
    | none => []

/-- The function `parseInt(string)` with no radix argument: leading white space is
skipped, then an optional sign, then an optional `0x`/`0X` (radix 16,
otherwise 10), then the longest run of digits; no digit gives `NaN`, and the
integer denoted is rounded to the nearest number value. -/
def parseInt (s : String) : JSNum :=
  let cs := s.toList.dropWhile isStrWhiteSpaceChar
  let negative := cs.head? = some '-'
  let cs := if cs.head? = some '-' ∨ cs.head? = some '+' then cs.tail else cs
  let hex := cs.take 2 = ['0', 'x'] ∨ cs.take 2 = ['0', 'X']
  let radix := if hex then 16 else 10
  let cs := if hex then cs.drop 2 else cs
  let ds := radixDigits radix cs
  if ds = [] then .nan
  else
    match F64.ofNat (ds.foldl (fun acc d => acc * radix + d) 0) with
    | .fin n => .int (if negative then -((n / F64.one : Nat) : Int) else ((n / F64.one : Nat) : Int))
    | _ => .inf negative

/-! ## The column `xp`: SQLite values and `xp + ?` -/

/-- The number value of an integer: the double nearest to `v`, a tie going to
the even significand; beyond the range of the doubles an infinity. -/
def JSNum.ofInt (v : Int) : JSNum :=
  match F64.ofNat v.natAbs with
  | .fin n => .int (if v < 0 then -((n / F64.one : Nat) : Int) else ((n / F64.one : Nat) : Int))
  | _ => .inf (decide (v < 0))

/-- The sum of two doubles: the exact sum rounded to the nearest double. -/
def JSNum.addDouble : JSNum → JSNum → JSNum
  | .int a, .int b => JSNum.ofInt (a + b)
  | .nan, _ => .nan
  | _, .nan => .nan
  | .inf s, .int _ => .inf s
  | .int _, .inf s => .inf s
  | .inf s, .inf t => if s = t then .inf s else .nan

/-- A value of the column `xp` with its storage class: NULL, an INTEGER (64
bits), or a REAL, which is a double, here an integer-valued one (`real v` has
the value `v`) or an infinity. The handlers add integer-valued numbers only, so
a column that starts out with integers holds nothing else. -/
inductive SqlNum where
  | null
  | int (v : Int)
  | real (v : Int)
  | inf (negative : Bool)
deriving DecidableEq, Repr

/-- A double as a REAL; SQLite takes NaN as NULL. -/
def SqlNum.ofDouble : JSNum → SqlNum
  | .int v => .real v
  | .inf s => .inf s
  | .nan => .null

/-- The value as a double (`sqlite3VdbeRealValue`): an INTEGER is converted to
the nearest double. -/
def SqlNum.toDouble : SqlNum → JSNum
  | .int v => JSNum.ofInt v
  | .real v => .int v
  | .inf s => .inf s
  | .null => .nan

/-- How the driver binds a JavaScript number to a `?`: as an INTEGER when it is
an integer of 32 bits (`-2^31 ≤ v ≤ 2^31 - 1`), as a double otherwise. -/
def bindNumber : JSNum → SqlNum
  | .int v => if -2147483648 ≤ v ∧ v ≤ 2147483647 then .int v else .real v
  | x => SqlNum.ofDouble x

/-- The operator `+` of SQLite: two INTEGERs add as 64-bit integers
(`-2^63 ≤ a + b ≤ 2^63 - 1`) and on overflow as doubles; NULL with anything is
NULL; every other pair adds as doubles and gives a REAL (NULL for NaN). -/
def SqlNum.add (a b : SqlNum) : SqlNum :=
  match a, b with
  | .int x, .int y =>
    if -9223372036854775808 ≤ x + y ∧ x + y ≤ 9223372036854775807 then .int (x + y)
    else SqlNum.ofDouble ((JSNum.ofInt x).addDouble (JSNum.ofInt y))
  | .null, _ => .null
  | _, .null => .null
  | a, b => SqlNum.ofDouble (a.toDouble.addDouble b.toDouble)

/-- The INTEGER affinity of the column `xp` when a value is stored: a REAL
whose value is an integer strictly between `-2^63` and `2^63 - 1` becomes
that INTEGER; every other value is stored as it is. -/
def SqlNum.storeInteger : SqlNum → SqlNum
  | .real v => if -9223372036854775808 < v ∧ v < 9223372036854775807 then .int v else .real v
  | x => x

/-- The JavaScript value the driver reads from the column (`null` is `none`):
an INTEGER arrives as the nearest double. -/
def SqlNum.toJS : SqlNum → Option JSNum
  | .null => none
  | .int v => some (JSNum.ofInt v)
  | .real v => some (.int v)
  | .inf s => some (.inf s)

/-! ## The database (`scripts/init_db.js`) -/

/-- A row of `users`. -/
structure User where
  id : Nat
  username : String
  password : String
  name : String
  role : String
  xp : SqlNum
deriving DecidableEq, Repr

/-- A row of `subjects`. -/
structure Subject where
  id : Nat
  name : String
deriving DecidableEq, Repr

/-- A row of `quizzes`; `options` is the stored JSON text. -/
structure Quiz where
  id : Nat
  subject_id : Nat
  question : String
  options : String
  answer : Int
deriving DecidableEq, Repr

/-- A row of `user_progress`. -/
structure UserProgress where
  id : Nat
  user_id : Nat
  subject_id : Nat
  progress : JSNum
deriving DecidableEq, Repr

/-- The database: the four tables in rowid order and the AUTOINCREMENT
counters (`sqlite_sequence`) of the two tables the server inserts into. -/
structure Db where
  users : List User
  subjects : List Subject
  quizzes : List Quiz
  user_progress : List UserProgress
  seqUsers : Nat
  seqProgress : Nat
deriving DecidableEq, Repr

/-- The rowid an AUTOINCREMENT table gives its next row: one more than the
largest rowid it has ever held. -/
def nextRowid (seq : Nat) (ids : List Nat) : Nat := ids.foldl max seq + 1

/-- The statement `INSERT INTO user_progress (user_id, subject_id, progress) VALUES (?, ?, ?)`. -/
def Db.insertProgress (db : Db) (userId subjectId : Nat) (progress : JSNum) : Db :=
  let id := nextRowid db.seqProgress (db.user_progress.map (·.id))
  { db with
    user_progress := db.user_progress ++ [⟨id, userId, subjectId, progress⟩]
    seqProgress := id }

/-- The statement `UPDATE users SET xp = xp + ? WHERE id = ?` with the number
`value` bound to the first `?`. -/
def Db.addXp (db : Db) (value : JSNum) (userId : Nat) : Db :=
  { db with
    users := db.users.map fun u =>
      if u.id = userId then { u with xp := (u.xp.add (bindNumber value)).storeInteger } else u }

/-- The statement `UPDATE user_progress SET progress = ? WHERE user_id = ? AND subject_id = ?`. -/
def Db.updateProgress (db : Db) (progress : JSNum) (userId subjectId : Nat) : Db :=
  { db with
    user_progress := db.user_progress.map fun p =>
      if p.user_id = userId ∧ p.subject_id = subjectId then { p with progress := progress } else p }

/-- The query `SELECT ... FROM users WHERE id = ?` through `db.get`: the first match. -/
def Db.userById (db : Db) (userId : Nat) : Option User :=
  db.users.find? fun u => u.id = userId

/-- The query `SELECT ... FROM quizzes WHERE subject_id = ?` through `db.all`. -/
def Db.quizzesOf (db : Db) (subjectId : Nat) : List Quiz :=
  db.quizzes.filter fun q => q.subject_id = subjectId

/-- The rows of `user_progress` of one user and subject. -/
def Db.progressOf (db : Db) (userId subjectId : Nat) : List UserProgress :=
  db.user_progress.filter fun p => p.user_id = userId ∧ p.subject_id = subjectId

/-- The database after `scripts/init_db.js`; `pw` is the bcrypt hash of the
seed password. -/
def seedDb (pw : String) : Db where
  users :=
    [ ⟨1, "teacher1", pw, "Mrs. Smith", "teacher", .int 200⟩,
      ⟨2, "student1", pw, "Rama", "student", .int 50⟩ ]
  subjects := [⟨1, "Mathematics"⟩, ⟨2, "Science"⟩, ⟨3, "Technology"⟩, ⟨4, "English"⟩]
  quizzes :=
    [ ⟨1, 1, "What is 2 + 2?", "[\"2\",\"3\",\"4\",\"5\"]", 2⟩,
      ⟨2, 1, "What is 5 * 3?", "[\"8\",\"15\",\"10\",\"20\"]", 1⟩,
      ⟨3, 2, "Water boils at?", "[\"50°C\",\"100°C\",\"150°C\",\"200°C\"]", 1⟩ ]
  user_progress :=
    [ ⟨1, 2, 1, .int 0⟩, ⟨2, 2, 2, .int 10⟩, ⟨3, 2, 3, .int 20⟩, ⟨4, 2, 4, .int 30⟩ ]
  seqUsers := 2
  seqProgress := 4

/-! ## Sessions and the middleware chain (`server.js`) -/

/-- What a route answers: one of the early exits of the middleware chain, an
uncaught exception (a `TypeError` reading `req.user.id` with no `req.user`, a
`SyntaxError` of `JSON.parse`), or the handler's own response. -/
inductive Outcome (β : Type) where
  | redirect (location : String)
  | forbidden
  | uncaught
  | ok (body : β)
deriving DecidableEq, Repr

/-- The session of a request: `req.session.userId`, if it is set. -/
structure Session where
  userId : Option Nat
deriving DecidableEq, Repr

/-- Truthiness of `req.session.userId`: set, and not the number `0`. -/
def Session.loggedIn (sess : Session) : Bool :=
  match sess.userId with
  | some id => id != 0
  | none => false

/-- The object `req.user`: the columns `id, username, name, role, xp` that the
middleware selects from the row of the session's user. -/
structure ReqUser where
  id : Nat
  username : String
  name : String
  role : String
  xp : Option JSNum
deriving DecidableEq, Repr

/-- The columns of a row of `users` that make up `req.user`. -/
def User.toReqUser (u : User) : ReqUser := ⟨u.id, u.username, u.name, u.role, u.xp.toJS⟩

/-- The middleware that attaches `req.user`: the selected columns of the row of
the session's user, when the session carries an id and the row exists. -/
def attachUser (db : Db) (sess : Session) : Option ReqUser :=
  if sess.loggedIn then (sess.userId.bind db.userById).map User.toReqUser else none

/-- The helper `requireLogin`: redirect to `/login` unless the session carries a user id. -/
def requireLogin {β : Type} (sess : Session) (next : Outcome β) : Outcome β :=
  if sess.loggedIn then next else .redirect "/login"

/-- The helper `requireRole(role)`: `403 Forbidden` unless `req.user` is set and has the role. -/
def requireRole {β : Type} (role : String) (user : Option ReqUser) (next : Outcome β) :
    Outcome β :=
  match user with
  | some u => if u.role = role then next else .forbidden
  | none => .forbidden

/-- The database a request leaves behind: the one its handler produced, or the
one it found when the route answered before any statement ran. -/
def Outcome.dbAfter {β : Type} (db : Db) : Outcome (β × Db) → Db
  | .ok (_, db1) => db1
  | _ => db

/-! ## Dashboards -/

/-- A row of the student dashboard query. -/
structure SubjectProgress where
  id : Nat
  name : String
  progress : JSNum
deriving DecidableEq, Repr

/-- The function `IFNULL(x, 0)`. -/
def ifnullZero : JSNum → JSNum
  | .nan => .int 0
  | x => x

/-- The query of the student dashboard: `subjects` LEFT JOIN `user_progress`
of the user, a subject with no row showing progress `0`. -/
def Db.subjectsWithProgress (db : Db) (userId : Nat) : List SubjectProgress :=
  db.subjects.flatMap fun s =>
    match db.progressOf userId s.id with
    | [] => [⟨s.id, s.name, .int 0⟩]
    | ps => ps.map fun p => ⟨s.id, s.name, ifnullZero p.progress⟩

/-- What `dashboard_student` is rendered with. -/
structure StudentDashboard where
  user : ReqUser
  subjects : List SubjectProgress
deriving DecidableEq, Repr

/-- The route `GET /student/dashboard`. -/
def getStudentDashboard (db : Db) (sess : Session) : Outcome StudentDashboard :=
  requireLogin sess <| requireRole "student" (attachUser db sess) <|
    match attachUser db sess with
    | some user => .ok ⟨user, db.subjectsWithProgress user.id⟩
    | none => .uncaught

/-- A row of the teacher dashboard query. -/
structure StudentXp where
  id : Nat
  username : String
  name : String
  xp : Option JSNum
deriving DecidableEq, Repr

/-- What `dashboard_teacher` is rendered with. -/
structure TeacherDashboard where
  user : Option ReqUser
  students : List StudentXp
deriving DecidableEq, Repr

/-- The route `GET /teacher/dashboard`. -/
def getTeacherDashboard (db : Db) (sess : Session) : Outcome TeacherDashboard :=
  requireLogin sess <| requireRole "teacher" (attachUser db sess) <|
    .ok ⟨attachUser db sess,
      (db.users.filter fun u => u.role = "student").map fun u =>
        ⟨u.id, u.username, u.name, u.xp.toJS⟩⟩

/-! ## The quiz -/

/-- One question as the quiz page receives it; `α` is the type of parsed JSON. -/
structure QuizView (α : Type) where
  id : Nat
  question : String
  options : α
deriving DecidableEq, Repr

/-- What the view `quiz` is rendered with by the quiz page. -/
structure QuizPage (α : Type) where
  user : Option ReqUser
  subjectId : Nat
  qs : List (QuizView α)
deriving DecidableEq, Repr

/-- The columns `id, question, options` of a quiz row, `options` parsed;
`jsonParse` is `JSON.parse`, `none` standing for its `SyntaxError`. -/
def Quiz.view {α : Type} (jsonParse : String → Option α) (r : Quiz) : Option (QuizView α) :=
  (jsonParse r.options).map fun o => ⟨r.id, r.question, o⟩

/-- The route `GET /quiz/:subjectId`. -/
def getQuiz {α : Type} (jsonParse : String → Option α) (db : Db) (sess : Session)
    (subjectId : Nat) : Outcome (QuizPage α) :=
  requireLogin sess <|
    match (db.quizzesOf subjectId).mapM (Quiz.view jsonParse) with
    | some qs => .ok ⟨attachUser db sess, subjectId, qs⟩
    | none => .uncaught

/-- The key under which the answer to a question is submitted: `'q_' + r.id`. -/
def answerKey (id : Nat) : String := "q_" ++ toString id

/-- One step of the grading loop: `correct++` when the selection is present
and `parseInt(sel) === r.answer`. -/
def gradeRow (answers : String → Option String) (correct : Nat) (r : Quiz) : Nat :=
  match answers (answerKey r.id) with
  | some sel => if parseInt sel = .int r.answer then correct + 1 else correct
  | none => correct

/-- The grading loop `rows.forEach(...)`, starting from `correct = 0`. -/
def gradeRows (answers : String → Option String) (rows : List Quiz) : Nat :=
  rows.foldl (gradeRow answers) 0

/-- The expression `Math.round((correct / total) * 100)`. -/
def progressPercent (correct total : Nat) : JSNum :=
  (Math.round ((F64.divNat correct total).mulNat 100)).toJSNum

/-- The object `result` the view `quiz` is rendered with after a submission. -/
structure SubmitResult where
  user : ReqUser
  subjectId : Nat
  correct : Nat
  total : Nat
  xpGain : Nat
deriving DecidableEq, Repr

/-- The route `POST /quiz/:subjectId/submit`; `answers` is `req.body`, a selection
being `undefined` where it is `none`. -/
def postQuizSubmit (db : Db) (sess : Session) (subjectId : Nat)
    (answers : String → Option String) : Outcome (SubmitResult × Db) :=
  requireLogin sess <|
    let correct := gradeRows answers (db.quizzesOf subjectId)
    let xpGain := correct * 10
    match attachUser db sess with
    | none => .uncaught
    | some user =>
      let db1 := db.addXp (JSNum.ofInt xpGain) user.id
      let count := (db1.quizzesOf subjectId).length
      let total := if count = 0 then 1 else count
      let progress := progressPercent correct total
      let db2 := db1.updateProgress progress user.id subjectId
      .ok (⟨user, subjectId, correct, total, xpGain⟩, db2)

/-! ## Awards -/

/-- The JSON body `{ ok: true, xp: row.xp }`. -/
structure AwardResult where
  ok : Bool
  xp : Option JSNum
deriving DecidableEq, Repr

/-- The expression `parseInt(xp) || 0` on the field `xp` of the body, an absent
field being `undefined`. -/
def awardValue (xp : Option String) : JSNum :=
  (parseInt (xp.getD "undefined")).orZero

/-- The route `POST /api/award`. -/
def postApiAward (db : Db) (sess : Session) (xp : Option String) :
    Outcome (AwardResult × Db) :=
  requireLogin sess <|
    match attachUser db sess with
    | none => .uncaught
    | some user =>
      let db1 := db.addXp (awardValue xp) user.id
      match db1.userById user.id with
      | some row => .ok (⟨true, row.xp.toJS⟩, db1)
      | none => .uncaught

/-! ## Registration -/

/-- The body of `POST /register`; a field that was not sent is `none`. -/
structure RegisterBody where
  username : Option String
  password : Option String
  name : Option String
  role : Option String
deriving DecidableEq, Repr

/-- What `POST /register` answers: the form again with an error, or a redirect
with the database and session it leaves. -/
inductive RegisterResult where
  | renderError (error : String)
  | redirect (location : String) (db : Db) (sess : Session)
deriving DecidableEq, Repr

/-- The statements `db.each(SELECT id FROM subjects, ...)` of registration: one
`INSERT INTO user_progress ... VALUES (?, ?, 0)` per subject. -/
def Db.initProgress (db : Db) (userId : Nat) : Db :=
  db.subjects.foldl (fun acc row => acc.insertProgress userId row.id (.int 0)) db

/-- The rowid (`this.lastID`) that the next `INSERT INTO users` gives its row. -/
def Db.nextUserId (db : Db) : Nat := nextRowid db.seqUsers (db.users.map (·.id))

/-- The statement `INSERT INTO users (username, password, name, role) VALUES (?, ?, ?, ?)`,
once the username is known to be free; `xp` takes its default `0`. -/
def Db.insertUser (db : Db) (username password name role : String) : Db :=
  { db with
    users := db.users ++ [⟨db.nextUserId, username, password, name, role, .int 0⟩]
    seqUsers := db.nextUserId }

/-- The route `POST /register`; `hash` is `bcrypt.hash(·, 10)`. A field is
missing when it is absent or the empty string; the `INSERT` fails when the
username is taken (`username TEXT UNIQUE`). -/
def postRegister (hash : String → String) (db : Db) (body : RegisterBody) : RegisterResult :=
  match body.username, body.password, body.name, body.role with
  | some username, some password, some name, some role =>
    if username = "" ∨ password = "" ∨ name = "" ∨ role = "" then
      .renderError "All fields required"
    else if db.users.any (fun u => u.username = username) then
      .renderError "Username may already exist"
    else
      let userId := db.nextUserId
      let db1 := db.insertUser username (hash password) name role
      .redirect "/" (db1.initProgress userId) ⟨some userId⟩
  | _, _, _, _ => .renderError "All fields required"

/-! ## Notions of the specification -/

/-- The selection submitted for a question is present and parses to the
question's correct index. -/
def SelectionCorrect (answers : String → Option String) (q : Quiz) : Prop :=
  ∃ sel, answers (answerKey q.id) = some sel ∧ parseInt sel = .int q.answer

instance (answers : String → Option String) (q : Quiz) :
    Decidable (SelectionCorrect answers q) :=
  match h : answers (answerKey q.id) with
  | none => isFalse (by rintro ⟨sel, hs, _⟩; rw [h] at hs; cases hs)
  | some sel =>
    if hp : parseInt sel = .int q.answer then isTrue ⟨sel, h, hp⟩
    else isFalse (by rintro ⟨sel1, hs, hp1⟩; rw [h] at hs; cases hs; exact hp hp1)

/-- The percentage of the specification: `100 * correct / total` rounded to the
nearest integer, a half rounding up. -/
def roundedPercentage (correct total : Nat) : Nat :=
  (200 * correct + total) / (2 * total)

/-- The answers of the seeded scenario: the first Mathematics question right
(`2`), the second wrong (`0`). -/
def scenarioAnswers : String → Option String := fun key =>
  if key = "q_1" then some "2" else if key = "q_2" then some "0" else none

/-- The columns of a quiz row that the quiz page selects, with the subject the
row belongs to: everything but `answer`. -/
def Quiz.presented (q : Quiz) : Nat × Nat × String × String :=
  (q.id, q.subject_id, q.question, q.options)

/-- The constraint `id INTEGER PRIMARY KEY` of `subjects`: no two rows share an id. -/
def Db.subjectKeysUnique (db : Db) : Prop := (db.subjects.map (·.id)).Nodup

instance (db : Db) : Decidable db.subjectKeysUnique := by
  unfold Db.subjectKeysUnique
  infer_instance

/-- The constraint `FOREIGN KEY(user_id) REFERENCES users(id)` of
`user_progress`: every row belongs to a row of `users`. -/
def Db.progressRefersToUsers (db : Db) : Prop :=
  ∀ p ∈ db.user_progress, ∃ u ∈ db.users, u.id = p.user_id

instance (db : Db) : Decidable db.progressRefersToUsers := by
  unfold Db.progressRefersToUsers
  infer_instance

/-- A database with one student, one subject and forty questions for it
(ids `1` to `40`, each with correct index `0`), and the student's progress
row. -/
def fortyQuestionsDb : Db where
  users := [⟨1, "student1", "", "Rama", "student", .int 0⟩]
  subjects := [⟨1, "Mathematics"⟩]
  quizzes := (List.range 40).map fun i => ⟨i + 1, 1, "", "[]", 0⟩
  user_progress := [⟨1, 1, 1, .int 0⟩]
  seqUsers := 1
  seqProgress := 1

/-- A payload that selects `0` for the questions `1` to `n` and nothing else. -/
def firstSelected (n : Nat) : String → Option String := fun key =>
  if key ∈ (List.range n).map (fun i => answerKey (i + 1)) then some "0" else none

/-- A value as the column `xp` can hold it once stored: an INTEGER of 64 bits,
or a REAL that is a double and did not fit an INTEGER, or NULL. -/
def SqlNum.Stored : SqlNum → Prop
  | .int v => -9223372036854775808 ≤ v ∧ v ≤ 9223372036854775807
  | .real v => JSNum.ofInt v = .int v ∧ ¬(-9223372036854775808 < v ∧ v < 9223372036854775807)
  | _ => True

/-- The seeded database after `student1` was awarded `xp = "1000000000000000000000"`
(`10 ^ 21`) through `POST /api/award`. -/
def awardedDb : Db :=
  (postApiAward (seedDb "") ⟨some 2⟩ (some "1000000000000000000000")).dbAfter (seedDb "")

/-! ## Basic facts about the middleware and the store statements -/

theorem loggedIn_of_attachUser {db : Db} {sess : Session} {u : ReqUser}
    (h : attachUser db sess = some u) : sess.loggedIn = true := by
  unfold attachUser at h
  split at h
  · assumption
  · simp at h

theorem row_of_attachUser {db : Db} {sess : Session} {u : ReqUser}
    (h : attachUser db sess = some u) :
    sess.userId = some u.id ∧ ∃ row, db.userById u.id = some row ∧ row.toReqUser = u := by
  have hl := loggedIn_of_attachUser h
  unfold attachUser at h
  rw [if_pos hl] at h
  cases hs : sess.userId with
  | none => simp [hs] at h
  | some id =>
    simp only [hs, Option.some_bind, Option.map_eq_some'] at h
    obtain ⟨row, hrow, hu⟩ := h
    have hid : row.id = id := by
      have := List.find?_some hrow
      simpa using this
    have hid2 : u.id = id := by rw [← hu, ← hid]; rfl
    rw [hid2]
    exact ⟨rfl, row, hrow, hu⟩

theorem sessionId_of_attachUser {db : Db} {sess : Session} {u : ReqUser}
    (h : attachUser db sess = some u) : sess.userId = some u.id :=
  (row_of_attachUser h).1

theorem attachUser_eq_userById {db : Db} {sess : Session} {u : ReqUser}
    (h : attachUser db sess = some u) (db1 : Db) :
    attachUser db1 sess = (db1.userById u.id).map User.toReqUser := by
  unfold attachUser
  rw [if_pos (loggedIn_of_attachUser h), sessionId_of_attachUser h, Option.some_bind]

theorem attachUser_seed_student :
    attachUser (seedDb "") ⟨some 2⟩ =
      some ⟨2, "student1", "Rama", "student", some (.int 50)⟩ := by
  set_option exponentiation.threshold 3000 in
  set_option maxRecDepth 100000 in
  decide

theorem attachUser_seed_teacher :
    attachUser (seedDb "") ⟨some 1⟩ =
      some ⟨1, "teacher1", "Mrs. Smith", "teacher", some (.int 200)⟩ := by
  set_option exponentiation.threshold 3000 in
  set_option maxRecDepth 100000 in
  decide

theorem postQuizSubmit_seed_student :
    postQuizSubmit (seedDb "") ⟨some 2⟩ 1 scenarioAnswers =
      .ok (⟨⟨2, "student1", "Rama", "student", some (.int 50)⟩, 1, 1, 2, 10⟩,
        { seedDb "" with
          users :=
            [ ⟨1, "teacher1", "", "Mrs. Smith", "teacher", .int 200⟩,
              ⟨2, "student1", "", "Rama", "student", .int 60⟩ ]
          user_progress :=
            [ ⟨1, 2, 1, .int 50⟩, ⟨2, 2, 2, .int 10⟩, ⟨3, 2, 3, .int 20⟩, ⟨4, 2, 4, .int 30⟩ ] }) := by
  set_option exponentiation.threshold 3000 in
  set_option maxRecDepth 100000 in
  decide

theorem find?_map_addXp (value : JSNum) (userId : Nat) (l : List User) (u : User)
    (h : l.find? (fun u => u.id = userId) = some u) :
    (l.map fun u =>
        if u.id = userId then { u with xp := (u.xp.add (bindNumber value)).storeInteger }
        else u).find?
      (fun u => u.id = userId) =
      some { u with xp := (u.xp.add (bindNumber value)).storeInteger } := by
  induction l with
  | nil => simp at h
  | cons a l ih =>
    by_cases ha : a.id = userId
    · simp [List.find?_cons, ha] at h ⊢
      subst h
      simp [ha]
    · simp [List.find?_cons, ha] at h ⊢
      simpa using ih h

theorem userById_addXp (db : Db) (value : JSNum) (userId : Nat) (u : User)
    (h : db.userById userId = some u) :
    (db.addXp value userId).userById userId =
      some { u with xp := (u.xp.add (bindNumber value)).storeInteger } :=
  find?_map_addXp value userId db.users u h

theorem submit_eq {db : Db} {sess : Session} {user : ReqUser} (sid : Nat)
    (answers : String → Option String) (h : attachUser db sess = some user) :
    postQuizSubmit db sess sid answers =
      .ok (⟨user, sid, gradeRows answers (db.quizzesOf sid),
            (if (db.quizzesOf sid).length = 0 then 1 else (db.quizzesOf sid).length),
            gradeRows answers (db.quizzesOf sid) * 10⟩,
          (db.addXp (JSNum.ofInt ((gradeRows answers (db.quizzesOf sid) * 10 : Nat) : Int)) user.id).updateProgress
            (progressPercent (gradeRows answers (db.quizzesOf sid))
              (if (db.quizzesOf sid).length = 0 then 1 else (db.quizzesOf sid).length))
            user.id sid) := by
  simp [postQuizSubmit, requireLogin, loggedIn_of_attachUser h, h, Db.quizzesOf, Db.addXp]


theorem gradeRow_eq (answers : String → Option String) (c : Nat) (q : Quiz) :
    gradeRow answers c q = if SelectionCorrect answers q then c + 1 else c := by
  unfold gradeRow SelectionCorrect
  split <;> rename_i h <;> simp [h]

theorem foldl_gradeRow (answers : String → Option String) (rows : List Quiz) (c : Nat) :
    rows.foldl (gradeRow answers) c = c + rows.countP (fun q => SelectionCorrect answers q) := by
  induction rows generalizing c with
  | nil => simp
  | cons q rows ih =>
    rw [List.foldl_cons, ih, gradeRow_eq, List.countP_cons]
    by_cases hq : SelectionCorrect answers q
    · simp [hq]; omega
    · simp [hq]

theorem gradeRows_congr (answers answers1 : String → Option String) (rows : List Quiz)
    (h : ∀ q ∈ rows, answers1 (answerKey q.id) = answers (answerKey q.id)) :
    gradeRows answers1 rows = gradeRows answers rows := by
  unfold gradeRows
  rw [foldl_gradeRow, foldl_gradeRow]
  congr 1
  apply List.countP_congr
  intro q hq
  simp [SelectionCorrect, h q hq]

theorem userById_updateProgress (db : Db) (progress : JSNum) (userId subjectId id : Nat) :
    (db.updateProgress progress userId subjectId).userById id = db.userById id := rfl

theorem progressOf_addXp (db : Db) (value : JSNum) (userId u s : Nat) :
    (db.addXp value userId).progressOf u s = db.progressOf u s := rfl

theorem quizzesOf_addXp (db : Db) (value : JSNum) (userId s : Nat) :
    (db.addXp value userId).quizzesOf s = db.quizzesOf s := rfl

theorem quizzesOf_updateProgress (db : Db) (progress : JSNum) (u s sid : Nat) :
    (db.updateProgress progress u s).quizzesOf sid = db.quizzesOf sid := rfl

theorem progressOf_updateProgress (db : Db) (progress : JSNum) (u s : Nat) :
    (db.updateProgress progress u s).progressOf u s =
      (db.progressOf u s).map fun p => { p with progress := progress } := by
  simp only [Db.progressOf, Db.updateProgress]
  generalize db.user_progress = l
  induction l with
  | nil => rfl
  | cons a l ih =>
    by_cases ha : a.user_id = u ∧ a.subject_id = s
    · simp only [List.map_cons, List.filter_cons, ha, and_self, if_true, decide_True]
      rw [ih]
    · simp only [List.map_cons, List.filter_cons, ha, if_false, decide_False]
      exact ih

theorem progressOf_updateProgress_of_ne (db : Db) (progress : JSNum) (u s u1 s1 : Nat)
    (hne : ¬(u1 = u ∧ s1 = s)) :
    (db.updateProgress progress u s).progressOf u1 s1 = db.progressOf u1 s1 := by
  simp only [Db.progressOf, Db.updateProgress]
  generalize db.user_progress = l
  induction l with
  | nil => rfl
  | cons a l ih =>
    by_cases ha : a.user_id = u ∧ a.subject_id = s
    · have hb : ¬(u = u1 ∧ s = s1) := fun hc => hne ⟨hc.1.symm, hc.2.symm⟩
      obtain ⟨rfl, rfl⟩ := ha
      simp only [List.map_cons, List.filter_cons, and_self, if_true, hb, decide_False]
      simpa using ih
    · simp only [List.map_cons, List.filter_cons, ha, if_false]
      rw [ih]

theorem progressPercent_zero_one : progressPercent 0 1 = .int 0 := by
  set_option exponentiation.threshold 3000 in
  set_option maxRecDepth 100000 in
  decide

theorem updateProgress_updateProgress (db : Db) (progress : JSNum) (u s : Nat) :
    ((db.updateProgress progress u s).updateProgress progress u s).user_progress =
      (db.updateProgress progress u s).user_progress := by
  simp only [Db.updateProgress, List.map_map]
  apply List.map_congr_left
  intro p _
  by_cases hp : p.user_id = u ∧ p.subject_id = s
  · simp [hp]
  · simp [hp]

/-- C3: for a logged-in user the submit handler always answers with a result,
whatever the payload; the count it reports is the number of the subject's own
questions whose selection is present and parses to the question's correct
index; an absent selection and one that parses to `NaN` leave the count as it
is; and a payload that agrees with another on the keys of the subject's
questions is graded the same, whatever else it holds. -/
theorem submit_grades_leniently (db : Db) (sess : Session) (sid : Nat)
    (answers : String → Option String) (user : ReqUser) (h : attachUser db sess = some user) :
    (∃ r db1, postQuizSubmit db sess sid answers = .ok (r, db1) ∧
      r.correct = (db.quizzesOf sid).countP (fun q => SelectionCorrect answers q)) ∧
    (∀ (q : Quiz) (c : Nat),
      gradeRow answers c q = if SelectionCorrect answers q then c + 1 else c) ∧
    (∀ (q : Quiz) (c : Nat), answers (answerKey q.id) = none → gradeRow answers c q = c) ∧
    (∀ (q : Quiz) (c : Nat) (sel : String), answers (answerKey q.id) = some sel →
      parseInt sel = .nan → gradeRow answers c q = c) ∧
    (∀ answers1 : String → Option String,
      (∀ q ∈ db.quizzesOf sid, answers1 (answerKey q.id) = answers (answerKey q.id)) →
      postQuizSubmit db sess sid answers1 = postQuizSubmit db sess sid answers) := by
  refine ⟨⟨_, _, submit_eq sid answers h, ?_⟩, fun q c => gradeRow_eq answers c q, ?_, ?_, ?_⟩
  · simp [gradeRows, foldl_gradeRow]
  · intro q c hq
    simp [gradeRow, hq]
  · intro q c sel hq hp
    simp [gradeRow, hq, hp]
  · intro answers1 hagree
    rw [submit_eq sid answers h, submit_eq sid answers1 h,
      gradeRows_congr answers answers1 _ hagree]

/-- Witness of C3 on the seeded database: `student1` with `scenarioAnswers`. -/
theorem submit_grades_leniently_witness :
    attachUser (seedDb "") ⟨some 2⟩ = some ⟨2, "student1", "Rama", "student", some (.int 50)⟩ ∧
    ∃ r db1, postQuizSubmit (seedDb "") ⟨some 2⟩ 1 scenarioAnswers = .ok (r, db1) ∧
      r.correct = ((seedDb "").quizzesOf 1).countP (fun q => SelectionCorrect scenarioAnswers q) :=
  ⟨attachUser_seed_student,
   (submit_grades_leniently (seedDb "") ⟨some 2⟩ 1 scenarioAnswers
    ⟨2, "student1", "Rama", "student", some (.int 50)⟩ attachUser_seed_student).1⟩

/-- C10: when the subject has no question, the submit handler of a logged-in
user divides by `1` (`trow.total || 1`), not by zero: it reports
`correct = 0`, `xpGain = 0`, computes the percentage `0`, and every progress
row of the user and subject holds `0` afterwards. -/
theorem submit_without_questions (db : Db) (sess : Session) (sid : Nat)
    (answers : String → Option String) (user : ReqUser) (h : attachUser db sess = some user)
    (hempty : db.quizzesOf sid = []) :
    ∃ r db1, postQuizSubmit db sess sid answers = .ok (r, db1) ∧
      r.correct = 0 ∧ r.xpGain = 0 ∧ r.total = 1 ∧
      progressPercent r.correct r.total = .int 0 ∧
      (∀ p ∈ db1.progressOf user.id sid, p.progress = .int 0) ∧
      (db1.progressOf user.id sid).length = (db.progressOf user.id sid).length := by
  refine ⟨_, _, submit_eq sid answers h, ?_, ?_, ?_, ?_, ?_, ?_⟩
  · simp [hempty, gradeRows]
  · simp [hempty, gradeRows]
  · simp [hempty]
  · simp [hempty, gradeRows, progressPercent_zero_one]
  · intro p hp
    rw [progressOf_updateProgress, progressOf_addXp] at hp
    obtain ⟨p0, _, rfl⟩ := List.mem_map.1 hp
    simp [hempty, gradeRows, progressPercent_zero_one]
  · rw [progressOf_updateProgress, progressOf_addXp, List.length_map]

/-- Witness of C10 on the seeded database: `student1` and the subject
Technology, which has no question. -/
theorem submit_without_questions_witness :
    attachUser (seedDb "") ⟨some 2⟩ = some ⟨2, "student1", "Rama", "student", some (.int 50)⟩ ∧
    (seedDb "").quizzesOf 3 = [] ∧
    ∃ r db1, postQuizSubmit (seedDb "") ⟨some 2⟩ 3 scenarioAnswers = .ok (r, db1) ∧
      r.correct = 0 ∧ r.xpGain = 0 ∧ r.total = 1 ∧
      progressPercent r.correct r.total = .int 0 ∧
      (∀ p ∈ db1.progressOf 2 3, p.progress = .int 0) ∧
      (db1.progressOf 2 3).length = ((seedDb "").progressOf 2 3).length :=
  ⟨attachUser_seed_student, by decide,
   submit_without_questions (seedDb "") ⟨some 2⟩ 3 scenarioAnswers
    ⟨2, "student1", "Rama", "student", some (.int 50)⟩ attachUser_seed_student (by decide)⟩

/-- C4, the claim fails where no progress row exists: `teacher1` of the seeded
database has none, and after the grading of a submission for Mathematics the
table still holds no row for that user and subject. -/
theorem submit_creates_no_progress_row :
    attachUser (seedDb "") ⟨some 1⟩ = some ⟨1, "teacher1", "Mrs. Smith", "teacher", some (.int 200)⟩ ∧
    (∃ r db1, postQuizSubmit (seedDb "") ⟨some 1⟩ 1 scenarioAnswers = .ok (r, db1)) ∧
    ¬ ∃ p ∈ ((postQuizSubmit (seedDb "") ⟨some 1⟩ 1 scenarioAnswers).dbAfter (seedDb "")).user_progress,
      p.user_id = 1 ∧ p.subject_id = 1 := by
  have h : attachUser (seedDb "") ⟨some 1⟩ =
      some ⟨1, "teacher1", "Mrs. Smith", "teacher", some (.int 200)⟩ :=
    attachUser_seed_teacher
  refine ⟨h, ⟨_, _, submit_eq 1 scenarioAnswers h⟩, ?_⟩
  set_option exponentiation.threshold 3000 in
  set_option maxRecDepth 100000 in
  decide

/-- C4 as amended: the progress write is an `UPDATE`. After the grading of a
submission of a logged-in user, the rows of that user and subject are the rows
that were there before, each now holding the computed percentage; the rows of
every other user or subject are as before; the table has as many rows as
before, and where the user had no row for the subject there is none. -/
theorem submit_overwrites_progress (db : Db) (sess : Session) (sid : Nat)
    (answers : String → Option String) (user : ReqUser) (h : attachUser db sess = some user) :
    ∃ r db1, postQuizSubmit db sess sid answers = .ok (r, db1) ∧
      (∀ p ∈ db1.progressOf user.id sid, p.progress = progressPercent r.correct r.total) ∧
      (db1.progressOf user.id sid).map (·.id) = (db.progressOf user.id sid).map (·.id) ∧
      (∀ u s : Nat, ¬(u = user.id ∧ s = sid) → db1.progressOf u s = db.progressOf u s) ∧
      db1.user_progress.length = db.user_progress.length ∧
      (db.progressOf user.id sid = [] → db1.progressOf user.id sid = []) := by
  refine ⟨_, _, submit_eq sid answers h, ?_, ?_, ?_, ?_, ?_⟩
  · intro p hp
    rw [progressOf_updateProgress, progressOf_addXp] at hp
    obtain ⟨p0, _, rfl⟩ := List.mem_map.1 hp
    rfl
  · rw [progressOf_updateProgress, progressOf_addXp, List.map_map]
    rfl
  · intro u s hne
    rw [progressOf_updateProgress_of_ne _ _ _ _ _ _ hne, progressOf_addXp]
  · simp [Db.updateProgress, Db.addXp]
  · intro hnone
    rw [progressOf_updateProgress, progressOf_addXp, hnone]
    rfl

/-- Witness of C4 as amended: `student1` of the seeded database. -/
theorem submit_overwrites_progress_witness :
    attachUser (seedDb "") ⟨some 2⟩ = some ⟨2, "student1", "Rama", "student", some (.int 50)⟩ ∧
    ∃ r db1, postQuizSubmit (seedDb "") ⟨some 2⟩ 1 scenarioAnswers = .ok (r, db1) ∧
      (∀ p ∈ db1.progressOf 2 1, p.progress = progressPercent r.correct r.total) ∧
      (db1.progressOf 2 1).map (·.id) = ((seedDb "").progressOf 2 1).map (·.id) ∧
      (∀ u s : Nat, ¬(u = 2 ∧ s = 1) → db1.progressOf u s = (seedDb "").progressOf u s) ∧
      db1.user_progress.length = (seedDb "").user_progress.length ∧
      ((seedDb "").progressOf 2 1 = [] → db1.progressOf 2 1 = []) :=
  ⟨attachUser_seed_student,
   submit_overwrites_progress (seedDb "") ⟨some 2⟩ 1 scenarioAnswers
    ⟨2, "student1", "Rama", "student", some (.int 50)⟩ attachUser_seed_student⟩

/-- C5, the claim fails for the award handler: on the seeded database the
payload `xp = "-5"` takes the score of `student1` from `50` to `45`. -/
theorem award_negative_lowers_score :
    ((seedDb "").userById 2).map (·.xp) = some (.int 50) ∧
    postApiAward (seedDb "") ⟨some 2⟩ (some "-5") =
      .ok (⟨true, some (.int 45)⟩,
        { seedDb "" with
          users :=
            [ ⟨1, "teacher1", "", "Mrs. Smith", "teacher", .int 200⟩,
              ⟨2, "student1", "", "Rama", "student", .int 45⟩ ] }) ∧
    (((postApiAward (seedDb "") ⟨some 2⟩ (some "-5")).dbAfter (seedDb "")).userById 2).map (·.xp) =
      some (.int 45) := by
  set_option exponentiation.threshold 3000 in
  set_option maxRecDepth 100000 in
  decide

/-- C6, the claim fails for a submission with no correct answer: submitted
twice by `student1` of the seeded database, the empty payload leaves the score
at `50` after the first grading and at `50` after the second. -/
theorem submit_twice_all_wrong_keeps_score :
    ((seedDb "").userById 2).map (·.xp) = some (.int 50) ∧
    (((postQuizSubmit (seedDb "") ⟨some 2⟩ 1 (fun _ => none)).dbAfter (seedDb "")).userById 2).map
      (·.xp) = some (.int 50) ∧
    (((postQuizSubmit ((postQuizSubmit (seedDb "") ⟨some 2⟩ 1 (fun _ => none)).dbAfter (seedDb ""))
      ⟨some 2⟩ 1 (fun _ => none)).dbAfter (seedDb "")).userById 2).map (·.xp) = some (.int 50) := by
  set_option exponentiation.threshold 3000 in
  set_option maxRecDepth 100000 in
  decide

theorem requireLogin_of_loggedIn {β : Type} {sess : Session} (next : Outcome β)
    (h : sess.loggedIn = true) : requireLogin sess next = next := by
  simp [requireLogin, h]

theorem requireLogin_of_not_loggedIn {β : Type} {sess : Session} (next : Outcome β)
    (h : sess.loggedIn = false) : requireLogin sess next = .redirect "/login" := by
  simp [requireLogin, h]

theorem attachUser_of_not_loggedIn (db : Db) {sess : Session} (h : sess.loggedIn = false) :
    attachUser db sess = none := by
  simp [attachUser, h]

/-- The gate that both dashboards share: the chain `requireLogin`,
`requireRole(role)` lets a request through exactly when `req.user` is set and
has the role. -/
theorem gate_passes_iff {β : Type} (role : String) (db : Db) (sess : Session)
    (next : Outcome β) (hnext : ∃ b, next = .ok b) :
    (∃ b, requireLogin sess (requireRole role (attachUser db sess) next) = .ok b) ↔
      ∃ u, attachUser db sess = some u ∧ u.role = role := by
  cases hl : sess.loggedIn with
  | false =>
    rw [requireLogin_of_not_loggedIn _ hl, attachUser_of_not_loggedIn db hl]
    simp
  | true =>
    rw [requireLogin_of_loggedIn _ hl]
    cases hu : attachUser db sess with
    | none => simp [requireRole]
    | some u =>
      by_cases hr : u.role = role
      · simpa [requireRole, hr] using hnext
      · simp [requireRole, hr]

/-- C8: the teacher dashboard is rendered exactly when the session resolves to
a user whose role is `teacher` (the session then carries that user's id, which
is a row of `users`); a request whose session carries no user id is redirected
to `/login`; a resolved user of another role, a student in particular, gets
`403 Forbidden`. The student dashboard is gated on the role `student` in the
same way. -/
theorem dashboards_role_gated (db : Db) (sess : Session) :
    ((∃ b, getTeacherDashboard db sess = .ok b) ↔
      ∃ u, attachUser db sess = some u ∧ u.role = "teacher") ∧
    (∀ u, attachUser db sess = some u →
      sess.userId = some u.id ∧ ∃ row, db.userById u.id = some row ∧ row.toReqUser = u) ∧
    (sess.userId = none → getTeacherDashboard db sess = .redirect "/login") ∧
    (∀ u, attachUser db sess = some u → u.role ≠ "teacher" →
      getTeacherDashboard db sess = .forbidden) ∧
    (∀ u, attachUser db sess = some u → u.role = "student" →
      getTeacherDashboard db sess = .forbidden) ∧
    ((∃ b, getStudentDashboard db sess = .ok b) ↔
      ∃ u, attachUser db sess = some u ∧ u.role = "student") ∧
    (sess.userId = none → getStudentDashboard db sess = .redirect "/login") ∧
    (∀ u, attachUser db sess = some u → u.role ≠ "student" →
      getStudentDashboard db sess = .forbidden) := by
  refine ⟨?_, ?_, ?_, ?_, ?_, ?_, ?_, ?_⟩
  · exact gate_passes_iff "teacher" db sess _ ⟨_, rfl⟩
  · intro u hu
    exact row_of_attachUser hu
  · intro hnone
    simp [getTeacherDashboard, requireLogin, Session.loggedIn, hnone]
  · intro u hu hr
    simp [getTeacherDashboard, requireLogin, loggedIn_of_attachUser hu, requireRole, hu, hr]
  · intro u hu hr
    simp [getTeacherDashboard, requireLogin, loggedIn_of_attachUser hu, requireRole, hu, hr]
  · cases hu : attachUser db sess with
    | none =>
      cases hl : sess.loggedIn <;>
        simp [getStudentDashboard, requireLogin, requireRole, hu, hl]
    | some u =>
      by_cases hr : u.role = "student"
      · simp [getStudentDashboard, requireLogin, loggedIn_of_attachUser hu, requireRole, hu, hr]
      · simp [getStudentDashboard, requireLogin, loggedIn_of_attachUser hu, requireRole, hu, hr]
  · intro hnone
    simp [getStudentDashboard, requireLogin, Session.loggedIn, hnone]
  · intro u hu hr
    simp [getStudentDashboard, requireLogin, loggedIn_of_attachUser hu, requireRole, hu, hr]

/-- Witness of C8 on the seeded database: `student1` is refused the teacher
dashboard and `teacher1` the student dashboard, each is shown the own one, and
a request with no session is redirected. -/
theorem dashboards_role_gated_witness :
    getTeacherDashboard (seedDb "") ⟨some 2⟩ = .forbidden ∧
    getStudentDashboard (seedDb "") ⟨some 1⟩ = .forbidden ∧
    (∃ b, getTeacherDashboard (seedDb "") ⟨some 1⟩ = .ok b) ∧
    (∃ b, getStudentDashboard (seedDb "") ⟨some 2⟩ = .ok b) ∧
    getTeacherDashboard (seedDb "") ⟨none⟩ = .redirect "/login" :=
  ⟨(dashboards_role_gated (seedDb "") ⟨some 2⟩).2.2.2.2.1
      ⟨2, "student1", "Rama", "student", some (.int 50)⟩ attachUser_seed_student rfl,
   (dashboards_role_gated (seedDb "") ⟨some 1⟩).2.2.2.2.2.2.2
      ⟨1, "teacher1", "Mrs. Smith", "teacher", some (.int 200)⟩ attachUser_seed_teacher (by decide),
   (dashboards_role_gated (seedDb "") ⟨some 1⟩).1.2
      ⟨⟨1, "teacher1", "Mrs. Smith", "teacher", some (.int 200)⟩, attachUser_seed_teacher, rfl⟩,
   (dashboards_role_gated (seedDb "") ⟨some 2⟩).2.2.2.2.2.1.2
      ⟨⟨2, "student1", "Rama", "student", some (.int 50)⟩, attachUser_seed_student, rfl⟩,
   (dashboards_role_gated (seedDb "") ⟨none⟩).2.2.1 rfl⟩

theorem quizzesOf_map_presented {db1 db2 : Db}
    (hq : db1.quizzes.map Quiz.presented = db2.quizzes.map Quiz.presented) (sid : Nat) :
    (db1.quizzesOf sid).map Quiz.presented = (db2.quizzesOf sid).map Quiz.presented := by
  unfold Db.quizzesOf
  generalize db1.quizzes = l1 at hq
  generalize db2.quizzes = l2 at hq
  induction l1 generalizing l2 with
  | nil =>
    cases l2 with
    | nil => rfl
    | cons b l2 => simp at hq
  | cons a l1 ih =>
    cases l2 with
    | nil => simp at hq
    | cons b l2 =>
      simp only [List.map_cons, List.cons.injEq] at hq
      have hs : a.subject_id = b.subject_id := by
        have := congrArg (fun t => t.2.1) hq.1
        simpa [Quiz.presented] using this
      by_cases hb : b.subject_id = sid
      · simp [List.filter_cons, hs, hb, hq.1, ih l2 hq.2]
      · simp [List.filter_cons, hs, hb, ih l2 hq.2]

theorem mapM_view_congr {α : Type} (jsonParse : String → Option α) (l1 l2 : List Quiz)
    (hq : l1.map Quiz.presented = l2.map Quiz.presented) :
    l1.mapM (Quiz.view jsonParse) = l2.mapM (Quiz.view jsonParse) := by
  induction l1 generalizing l2 with
  | nil =>
    cases l2 with
    | nil => rfl
    | cons b l2 => simp at hq
  | cons a l1 ih =>
    cases l2 with
    | nil => simp at hq
    | cons b l2 =>
      simp only [List.map_cons, List.cons.injEq] at hq
      have hv : Quiz.view jsonParse a = Quiz.view jsonParse b := by
        have h1 := hq.1
        simp only [Quiz.presented, Prod.mk.injEq] at h1
        simp [Quiz.view, h1.1, h1.2.2.1, h1.2.2.2]
      simp only [List.mapM_cons, hv, ih l2 hq.2]

theorem mem_of_mapM_view {α : Type} (jsonParse : String → Option α) (l : List Quiz)
    (qs : List (QuizView α)) (h : l.mapM (Quiz.view jsonParse) = some qs) :
    ∀ v ∈ qs, ∃ q ∈ l, Quiz.view jsonParse q = some v := by
  induction l generalizing qs with
  | nil =>
    simp only [List.mapM_nil] at h
    cases h
    simp
  | cons a l ih =>
    rw [List.mapM_cons] at h
    cases ha : Quiz.view jsonParse a with
    | none => simp [ha] at h
    | some b =>
      cases hl : l.mapM (Quiz.view jsonParse) with
      | none =>
        rw [ha, hl] at h
        cases h
      | some bs =>
        rw [ha, hl] at h
        simp only [Option.pure_def, Option.bind_eq_bind, Option.some_bind,
          Option.some.injEq] at h
        subst h
        intro v hv
        rcases List.mem_cons.1 hv with rfl | hv
        · exact ⟨a, List.mem_cons_self _ _, ha⟩
        · obtain ⟨q, hq, hqv⟩ := ih bs hl v hv
          exact ⟨q, List.mem_cons_of_mem _ hq, hqv⟩

/-- C9: the quiz page does not depend on the correct indices. Two databases
with the same users whose quiz rows agree, row by row, on id, subject,
question and options (the answers being arbitrary) give the same response to
`GET /quiz/:subjectId` for every session and subject, whatever `JSON.parse`
does; and each question of a rendered page is the `id`, `question` and parsed
`options` of a quiz row of the subject (`QuizView` has no other field). -/
theorem quiz_page_hides_answers {α : Type} (jsonParse : String → Option α) (db1 db2 : Db)
    (sess : Session) (sid : Nat) (husers : db1.users = db2.users)
    (hquiz : db1.quizzes.map Quiz.presented = db2.quizzes.map Quiz.presented) :
    getQuiz jsonParse db1 sess sid = getQuiz jsonParse db2 sess sid ∧
    ∀ page, getQuiz jsonParse db1 sess sid = .ok page →
      ∀ v ∈ page.qs, ∃ q ∈ db1.quizzesOf sid,
        v.id = q.id ∧ v.question = q.question ∧ jsonParse q.options = some v.options := by
  constructor
  · have hm := mapM_view_congr jsonParse _ _ (quizzesOf_map_presented hquiz sid)
    have ha : attachUser db1 sess = attachUser db2 sess := by
      simp [attachUser, Db.userById, husers]
    simp only [getQuiz, hm, ha]
  · intro page hpage v hv
    unfold getQuiz requireLogin at hpage
    split at hpage
    · split at hpage
      · rename_i qs hqs
        cases hpage
        obtain ⟨q, hq, hqv⟩ := mem_of_mapM_view jsonParse _ qs hqs v hv
        refine ⟨q, hq, ?_⟩
        unfold Quiz.view at hqv
        cases ho : jsonParse q.options with
        | none => simp [ho] at hqv
        | some o =>
          simp only [ho, Option.map_some', Option.some.injEq] at hqv
          subst hqv
          exact ⟨rfl, rfl, rfl⟩
      · cases hpage
    · cases hpage

/-- Witness of C9: the seeded database and a copy of it in which every answer
is `0` give the same quiz page for Mathematics. -/
theorem quiz_page_hides_answers_witness :
    (seedDb "").quizzes ≠ ((seedDb "").quizzes.map fun q => { q with answer := 0 }) ∧
    getQuiz (fun o => some o) (seedDb "") ⟨some 2⟩ 1 =
      getQuiz (fun o => some o)
        { seedDb "" with quizzes := (seedDb "").quizzes.map fun q => { q with answer := 0 } }
        ⟨some 2⟩ 1 :=
  ⟨by decide,
   (quiz_page_hides_answers (fun o => some o) (seedDb "")
      { seedDb "" with quizzes := (seedDb "").quizzes.map fun q => { q with answer := 0 } }
      ⟨some 2⟩ 1 rfl (by decide)).1⟩

theorem le_foldl_max (l : List Nat) (a : Nat) : a ≤ l.foldl max a := by
  induction l generalizing a with
  | nil => exact Nat.le_refl a
  | cons b l ih => exact Nat.le_trans (Nat.le_max_left a b) (ih (max a b))

theorem le_foldl_max_of_mem (l : List Nat) (a i : Nat) (hi : i ∈ l) : i ≤ l.foldl max a := by
  induction l generalizing a with
  | nil => cases hi
  | cons b l ih =>
    rcases List.mem_cons.1 hi with rfl | hi
    · exact Nat.le_trans (Nat.le_max_right a i) (le_foldl_max l (max a i))
    · exact ih (max a b) hi

theorem lt_nextRowid (seq : Nat) (ids : List Nat) (i : Nat) (hi : i ∈ ids) :
    i < nextRowid seq ids :=
  Nat.lt_succ_of_le (le_foldl_max_of_mem ids seq i hi)

theorem foldl_insertProgress (uid : Nat) (subs : List Subject) (d : Db) :
    ∃ extra : List UserProgress,
      (subs.foldl (fun acc row => acc.insertProgress uid row.id (.int 0)) d).user_progress =
        d.user_progress ++ extra ∧
      extra.map (·.subject_id) = subs.map (·.id) ∧
      (∀ p ∈ extra, p.user_id = uid ∧ p.progress = .int 0) ∧
      (subs.foldl (fun acc row => acc.insertProgress uid row.id (.int 0)) d).users = d.users ∧
      (subs.foldl (fun acc row => acc.insertProgress uid row.id (.int 0)) d).subjects =
        d.subjects := by
  induction subs generalizing d with
  | nil => exact ⟨[], by simp⟩
  | cons s subs ih =>
    obtain ⟨extra, h1, h2, h3, h4, h5⟩ := ih (d.insertProgress uid s.id (.int 0))
    refine ⟨⟨nextRowid d.seqProgress (d.user_progress.map (·.id)), uid, s.id, .int 0⟩ :: extra,
      ?_, ?_, ?_, ?_, ?_⟩
    · rw [List.foldl_cons, h1]
      simp [Db.insertProgress]
    · simp [h2]
    · intro p hp
      rcases List.mem_cons.1 hp with rfl | hp
      · exact ⟨rfl, rfl⟩
      · exact h3 p hp
    · rw [List.foldl_cons, h4]; rfl
    · rw [List.foldl_cons, h5]; rfl

theorem filter_extra_length (uid sid : Nat) (ids : List Nat) (extra : List UserProgress)
    (hmap : extra.map (·.subject_id) = ids) (huid : ∀ p ∈ extra, p.user_id = uid) :
    (extra.filter fun p => p.user_id = uid ∧ p.subject_id = sid).length = ids.count sid := by
  induction extra generalizing ids with
  | nil => subst hmap; rfl
  | cons a extra ih =>
    subst hmap
    have ha : a.user_id = uid := huid a (List.mem_cons_self _ _)
    have := ih _ rfl (fun p hp => huid p (List.mem_cons_of_mem _ hp))
    simp only [Bool.decide_and] at this
    by_cases hs : a.subject_id = sid
    · simp [List.filter_cons, ha, hs, this]
    · simp [List.filter_cons, ha, hs, this, List.count_cons]

theorem postRegister_eq (hash : String → String) (db : Db)
    (username password name role : String)
    (hfields : username ≠ "" ∧ password ≠ "" ∧ name ≠ "" ∧ role ≠ "")
    (hfree : ∀ u ∈ db.users, u.username ≠ username) :
    postRegister hash db ⟨some username, some password, some name, some role⟩ =
      .redirect "/" ((db.insertUser username (hash password) name role).initProgress db.nextUserId)
        ⟨some db.nextUserId⟩ := by
  obtain ⟨h1, h2, h3, h4⟩ := hfields
  have hany : db.users.any (fun u => decide (u.username = username)) = false := by
    rw [List.any_eq_false]
    intro u hu
    simpa using hfree u hu
  simp only [postRegister, h1, h2, h3, h4, or_self, if_false, hany, Bool.false_eq_true]

/-- C7: a registration with four non-empty fields and a username not yet
taken, on a database that meets its key constraints, redirects to `/` with the
session of a new user (an id no row of `users` has); afterwards that user has,
for each subject, exactly one progress row, holding `0`, and no row for
anything that is not a subject; the progress rows of all other users are the
rows of before, unchanged and in the same order; the subjects are unchanged. -/
theorem register_initialises_progress (hash : String → String) (db : Db)
    (username password name role : String)
    (hfields : username ≠ "" ∧ password ≠ "" ∧ name ≠ "" ∧ role ≠ "")
    (hfree : ∀ u ∈ db.users, u.username ≠ username)
    (hpk : db.subjectKeysUnique) (hfk : db.progressRefersToUsers) :
    ∃ uid db1,
      postRegister hash db ⟨some username, some password, some name, some role⟩ =
        .redirect "/" db1 ⟨some uid⟩ ∧
      (∀ u ∈ db.users, u.id ≠ uid) ∧
      db1.users = db.users ++ [⟨uid, username, hash password, name, role, .int 0⟩] ∧
      (∀ s ∈ db.subjects, ∃ p, db1.progressOf uid s.id = [p] ∧ p.progress = .int 0) ∧
      (∀ p ∈ db1.user_progress, p.user_id = uid → ∃ s ∈ db.subjects, s.id = p.subject_id) ∧
      db1.user_progress.filter (fun p => p.user_id ≠ uid) = db.user_progress ∧
      db1.subjects = db.subjects := by
  have hfresh : ∀ u ∈ db.users, u.id ≠ db.nextUserId := by
    intro u hu
    exact Nat.ne_of_lt (lt_nextRowid _ _ _ (List.mem_map_of_mem _ hu))
  have hold : ∀ p ∈ db.user_progress, p.user_id ≠ db.nextUserId := by
    intro p hp
    obtain ⟨u, hu, hup⟩ := hfk p hp
    rw [← hup]
    exact hfresh u hu
  obtain ⟨extra, e1, e2, e3, e4, e5⟩ :=
    foldl_insertProgress db.nextUserId db.subjects
      (db.insertUser username (hash password) name role)
  have e1 : ((db.insertUser username (hash password) name role).initProgress
      db.nextUserId).user_progress = db.user_progress ++ extra := e1
  have e4 : ((db.insertUser username (hash password) name role).initProgress
      db.nextUserId).users =
      db.users ++ [⟨db.nextUserId, username, hash password, name, role, .int 0⟩] := e4
  have e5 : ((db.insertUser username (hash password) name role).initProgress
      db.nextUserId).subjects = db.subjects := e5
  refine ⟨db.nextUserId, _, postRegister_eq hash db username password name role hfields hfree,
    hfresh, e4, ?_, ?_, ?_, e5⟩
  · intro s hs
    have hlen : ((db.insertUser username (hash password) name role).initProgress
        db.nextUserId).progressOf db.nextUserId s.id =
        extra.filter (fun p => p.user_id = db.nextUserId ∧ p.subject_id = s.id) := by
      unfold Db.progressOf
      rw [e1, List.filter_append]
      have : db.user_progress.filter (fun p =>
          decide (p.user_id = db.nextUserId ∧ p.subject_id = s.id)) = [] := by
        rw [List.filter_eq_nil_iff]
        intro p hp
        simp [hold p hp]
      rw [this, List.nil_append]
    have hcount := filter_extra_length db.nextUserId s.id _ extra e2 (fun p hp => (e3 p hp).1)
    rw [List.count_eq_one_of_mem hpk (List.mem_map_of_mem _ hs)] at hcount
    obtain ⟨p, hp⟩ := List.length_eq_one.1 hcount
    refine ⟨p, by rw [hlen, hp], ?_⟩
    have hmem : p ∈ extra := by
      have : p ∈ extra.filter (fun p => p.user_id = db.nextUserId ∧ p.subject_id = s.id) := by
        rw [hp]; exact List.mem_singleton_self p
      exact (List.mem_filter.1 this).1
    exact (e3 p hmem).2
  · intro p hp hpu
    rw [e1] at hp
    rcases List.mem_append.1 hp with hp | hp
    · exact absurd hpu (hold p hp)
    · have : p.subject_id ∈ db.subjects.map (·.id) := by
        rw [← e2]; exact List.mem_map_of_mem _ hp
      obtain ⟨s, hs, hsid⟩ := List.mem_map.1 this
      exact ⟨s, hs, hsid⟩
  · rw [e1, List.filter_append]
    have hk : db.user_progress.filter (fun p => decide (p.user_id ≠ db.nextUserId)) =
        db.user_progress := by
      rw [List.filter_eq_self]
      intro p hp
      simpa using hold p hp
    have hd : extra.filter (fun p => decide (p.user_id ≠ db.nextUserId)) = [] := by
      rw [List.filter_eq_nil_iff]
      intro p hp
      simp [(e3 p hp).1]
    rw [hk, hd, List.append_nil]

/-- Witness of C7: a new student registers on the seeded database and gets the
user id `3`. -/
theorem register_initialises_progress_witness :
    ("bob" ≠ "" ∧ "secret" ≠ "" ∧ "Bob" ≠ "" ∧ "student" ≠ "") ∧
    (∀ u ∈ (seedDb "").users, u.username ≠ "bob") ∧
    (seedDb "").subjectKeysUnique ∧ (seedDb "").progressRefersToUsers ∧
    ∃ uid db1,
      postRegister (fun pw => pw) (seedDb "") ⟨some "bob", some "secret", some "Bob", some "student"⟩ =
        .redirect "/" db1 ⟨some uid⟩ ∧
      (∀ u ∈ (seedDb "").users, u.id ≠ uid) ∧
      db1.users = (seedDb "").users ++ [⟨uid, "bob", "secret", "Bob", "student", .int 0⟩] ∧
      (∀ s ∈ (seedDb "").subjects, ∃ p, db1.progressOf uid s.id = [p] ∧ p.progress = .int 0) ∧
      (∀ p ∈ db1.user_progress, p.user_id = uid →
        ∃ s ∈ (seedDb "").subjects, s.id = p.subject_id) ∧
      db1.user_progress.filter (fun p => p.user_id ≠ uid) = (seedDb "").user_progress ∧
      db1.subjects = (seedDb "").subjects :=
  ⟨by decide, by decide, by decide, by decide,
   register_initialises_progress (fun pw => pw) (seedDb "") "bob" "secret" "Bob" "student"
    (by decide) (by decide) (by decide) (by decide)⟩

/-- C1, the code at the failing input: with forty questions of which the
first twenty-three are answered correctly, the handler counts `correct = 23`
and `total = 40` and writes `Math.round((23 / 40) * 100) = 57` to the progress
row, while `100 * 23 / 40 = 57.5` rounds half up to `58`. -/
theorem submit_23_of_40_writes_57 :
    postQuizSubmit fortyQuestionsDb ⟨some 1⟩ 1 (firstSelected 23) =
      .ok (⟨⟨1, "student1", "Rama", "student", some (.int 0)⟩, 1, 23, 40, 230⟩,
        { fortyQuestionsDb with
          users := [⟨1, "student1", "", "Rama", "student", .int 230⟩]
          user_progress := [⟨1, 1, 1, .int 57⟩] }) ∧
    progressPercent 23 40 = .int 57 ∧
    roundedPercentage 23 40 = 58 := by
  set_option exponentiation.threshold 3000 in
  set_option maxRecDepth 100000 in
  decide

/-! ## The range of the percentage -/

theorem log2Fuel_le (fuel n m : Nat) (h : n < 2 ^ (m + 1)) : log2Fuel fuel n ≤ m := by
  induction fuel generalizing n m with
  | zero => simp [log2Fuel]
  | succ fuel ih =>
    unfold log2Fuel
    split
    · rename_i h2
      cases m with
      | zero => omega
      | succ m =>
        have : n / 2 < 2 ^ (m + 1) := by
          apply Nat.div_lt_of_lt_mul
          rw [Nat.pow_succ] at h
          omega
        have := ih (n / 2) m this
        omega
    · exact Nat.zero_le m

theorem ilog2_le (n m : Nat) (h : n < 2 ^ (m + 1)) : ilog2 n ≤ m :=
  log2Fuel_le n n m h

theorem roundHalfEven_le (p q M : Nat) (hq : 0 < q) (h : p ≤ q * M) :
    roundHalfEven p q ≤ M := by
  have hd : p / q ≤ M := by
    apply Nat.div_le_of_le_mul
    exact h
  have hdm := Nat.div_add_mod p q
  unfold roundHalfEven
  simp only
  rcases Nat.lt_or_eq_of_le hd with hlt | heq
  · split
    · omega
    · split
      · omega
      · split <;> omega
  · have hr : p % q = 0 := by
      rw [heq] at hdm
      omega
    rw [if_pos (by omega)]
    exact hd

theorem F64.round_le (p q V e : Nat) (hq : 0 < q) (hV : p ≤ q * V) (hlog : V < 2 ^ (e + 1))
    (hdvd : 2 ^ (e - 52) ∣ V) (hfin : V < 2 ^ 1024 * F64.one) :
    ∃ r, F64.round p q = .fin r ∧ r ≤ V := by
  have hpq : p / q ≤ V := Nat.div_le_of_le_mul hV
  have hk : ilog2 (p / q) - 52 ≤ e - 52 :=
    Nat.sub_le_sub_right (ilog2_le _ _ (Nat.lt_of_le_of_lt hpq hlog)) 52
  obtain ⟨M, hM⟩ : 2 ^ (ilog2 (p / q) - 52) ∣ V :=
    Nat.dvd_trans (Nat.pow_dvd_pow 2 hk) hdvd
  have hle : roundHalfEven p (q * 2 ^ (ilog2 (p / q) - 52)) ≤ M := by
    apply roundHalfEven_le _ _ _ (Nat.mul_pos hq (Nat.two_pow_pos _))
    rw [Nat.mul_assoc, ← hM]
    exact hV
  have hr : roundHalfEven p (q * 2 ^ (ilog2 (p / q) - 52)) * 2 ^ (ilog2 (p / q) - 52) ≤ V := by
    rw [hM, Nat.mul_comm]
    exact Nat.mul_le_mul_left _ hle
  refine ⟨_, ?_, hr⟩
  unfold F64.round
  simp only
  rw [if_pos (Nat.lt_of_le_of_lt hr hfin)]

theorem F64.one_def : F64.one = 2 ^ 1074 := by
  unfold F64.one
  rfl

theorem F64.one_pos : 0 < F64.one := by
  rw [F64.one_def]
  exact pow_pos Nat.two_pos 1074

theorem F64.one_lt : F64.one < 2 ^ (1074 + 1) := by
  rw [F64.one_def]
  exact pow_lt_pow_right₀ Nat.one_lt_two (Nat.lt_succ_self 1074)

theorem F64.dvd_one (k : Nat) (hk : k ≤ 1074) : 2 ^ k ∣ F64.one := by
  rw [F64.one_def]
  exact pow_dvd_pow 2 hk

theorem F64.hundred_lt : 100 * F64.one < 2 ^ (1080 + 1) := by
  rw [F64.one_def, show (1080 + 1 : Nat) = 7 + 1074 from rfl, pow_add]
  exact Nat.mul_lt_mul_of_pos_right (by decide : 100 < 2 ^ 7) (pow_pos Nat.two_pos 1074)

theorem F64.small_lt (a : Nat) (ha : a ≤ 100) : a * F64.one < 2 ^ 1024 * F64.one := by
  have h7 : (2 : Nat) ^ 7 ≤ 2 ^ 1024 :=
    pow_le_pow_right₀ one_le_two (by omega)
  have h128 : a < 2 ^ 7 := Nat.lt_of_le_of_lt ha (by decide)
  exact Nat.mul_lt_mul_of_pos_right (Nat.lt_of_lt_of_le h128 h7) F64.one_pos

/-- The expression `Math.round((correct / total) * 100)` is an integer between
`0` and `100` whenever `correct ≤ total` and `total` is not `0`. -/
theorem progressPercent_le_hundred (c t : Nat) (hc : c ≤ t) (ht : 0 < t) :
    ∃ n : Nat, progressPercent c t = .int n ∧ n ≤ 100 := by
  have hB := F64.one_pos
  have hcB : c * F64.one ≤ t * F64.one := Nat.mul_le_mul_right _ hc
  have h1 : F64.one < 2 ^ 1024 * F64.one := by
    have h := F64.small_lt 1 (by omega)
    rw [Nat.one_mul] at h
    exact h
  obtain ⟨r, hr, hrle⟩ := F64.round_le (c * F64.one) t F64.one 1074 ht hcB F64.one_lt
    (F64.dvd_one _ (by omega)) h1
  have hr100 : r * 100 ≤ 1 * (100 * F64.one) := by omega
  obtain ⟨r1, hr1, hr1le⟩ := F64.round_le (r * 100) 1 (100 * F64.one) 1080 (by omega) hr100
    F64.hundred_lt (Nat.dvd_trans (F64.dvd_one _ (by omega)) (Nat.dvd_mul_left _ 100))
    (F64.small_lt 100 (by omega))
  refine ⟨(2 * r1 + F64.one) / (2 * F64.one), ?_, ?_⟩
  · unfold progressPercent F64.divNat
    rw [if_neg (Nat.pos_iff_ne_zero.1 ht), hr]
    unfold F64.mulNat
    simp only
    rw [hr1]
    unfold Math.round F64.toJSNum
    simp only
    rw [Nat.mul_div_cancel _ hB]
  · apply Nat.le_of_lt_succ
    apply Nat.div_lt_of_lt_mul
    omega

theorem gradeRows_le_length (answers : String → Option String) (rows : List Quiz) :
    gradeRows answers rows ≤ rows.length := by
  unfold gradeRows
  rw [foldl_gradeRow, Nat.zero_add]
  exact List.countP_le_length _

/-- The percentage the submit handler writes is an integer from `0` to `100`:
for a logged-in user the handler reports `correct ≤ total` with `total ≥ 1`,
and every progress row of the user and subject holds afterwards one and the
same integer between `0` and `100`, the value of
`Math.round((correct / total) * 100)`. -/
theorem submit_percentage_in_range (db : Db) (sess : Session) (sid : Nat)
    (answers : String → Option String) (user : ReqUser) (h : attachUser db sess = some user) :
    ∃ r db1, postQuizSubmit db sess sid answers = .ok (r, db1) ∧
      r.correct ≤ r.total ∧ 0 < r.total ∧
      ∃ n : Nat, progressPercent r.correct r.total = .int n ∧ n ≤ 100 ∧
        ∀ p ∈ db1.progressOf user.id sid, p.progress = .int n := by
  have hle : gradeRows answers (db.quizzesOf sid) ≤
      (if (db.quizzesOf sid).length = 0 then 1 else (db.quizzesOf sid).length) := by
    have := gradeRows_le_length answers (db.quizzesOf sid)
    split <;> omega
  have hpos : 0 < (if (db.quizzesOf sid).length = 0 then 1 else (db.quizzesOf sid).length) := by
    split <;> omega
  obtain ⟨n, hn, hn100⟩ := progressPercent_le_hundred _ _ hle hpos
  refine ⟨_, _, submit_eq sid answers h, hle, hpos, n, hn, hn100, ?_⟩
  intro p hp
  rw [progressOf_updateProgress, progressOf_addXp] at hp
  obtain ⟨p0, _, rfl⟩ := List.mem_map.1 hp
  exact hn

/-- Witness of the range of the percentage: `student1` of the seeded database. -/
theorem submit_percentage_in_range_witness :
    attachUser (seedDb "") ⟨some 2⟩ = some ⟨2, "student1", "Rama", "student", some (.int 50)⟩ ∧
    ∃ r db1, postQuizSubmit (seedDb "") ⟨some 2⟩ 1 scenarioAnswers = .ok (r, db1) ∧
      r.correct ≤ r.total ∧ 0 < r.total ∧
      ∃ n : Nat, progressPercent r.correct r.total = .int n ∧ n ≤ 100 ∧
        ∀ p ∈ db1.progressOf 2 1, p.progress = .int n :=
  ⟨attachUser_seed_student,
   submit_percentage_in_range (seedDb "") ⟨some 2⟩ 1 scenarioAnswers
    ⟨2, "student1", "Rama", "student", some (.int 50)⟩ attachUser_seed_student⟩

/-! ## The key constraints are kept -/

theorem progressRefersToUsers_addXp (db : Db) (value : JSNum) (userId : Nat)
    (hfk : db.progressRefersToUsers) : (db.addXp value userId).progressRefersToUsers := by
  intro p hp
  obtain ⟨u, hu, hup⟩ := hfk p hp
  refine ⟨if u.id = userId then
    { u with xp := (u.xp.add (bindNumber value)).storeInteger } else u, ?_, ?_⟩
  · exact List.mem_map.2 ⟨u, hu, rfl⟩
  · split <;> exact hup

theorem progressRefersToUsers_updateProgress (db : Db) (progress : JSNum) (userId sid : Nat)
    (hfk : db.progressRefersToUsers) :
    (db.updateProgress progress userId sid).progressRefersToUsers := by
  intro p hp
  obtain ⟨p0, hp0, rfl⟩ := List.mem_map.1 hp
  obtain ⟨u, hu, hup⟩ := hfk p0 hp0
  refine ⟨u, hu, ?_⟩
  split <;> exact hup

theorem progressRefersToUsers_register (db : Db) (username password name role : String)
    (hfk : db.progressRefersToUsers) :
    ((db.insertUser username password name role).initProgress db.nextUserId).progressRefersToUsers := by
  obtain ⟨extra, e1, _, e3, e4, _⟩ :=
    foldl_insertProgress db.nextUserId db.subjects (db.insertUser username password name role)
  have e1 : ((db.insertUser username password name role).initProgress
      db.nextUserId).user_progress = db.user_progress ++ extra := e1
  have e4 : ((db.insertUser username password name role).initProgress db.nextUserId).users =
      db.users ++ [⟨db.nextUserId, username, password, name, role, .int 0⟩] := e4
  intro p hp
  rw [e1] at hp
  rw [e4]
  rcases List.mem_append.1 hp with hp | hp
  · obtain ⟨u, hu, hup⟩ := hfk p hp
    exact ⟨u, List.mem_append_left _ hu, hup⟩
  · exact ⟨_, List.mem_append_right _ (List.mem_singleton_self _), (e3 p hp).1.symm⟩

theorem subjects_register (db : Db) (username password name role : String) :
    ((db.insertUser username password name role).initProgress db.nextUserId).subjects =
      db.subjects := by
  obtain ⟨_, _, _, _, _, e5⟩ :=
    foldl_insertProgress db.nextUserId db.subjects (db.insertUser username password name role)
  exact e5

/-- The key constraints of the schema hold after `scripts/init_db.js` and are
kept by the three routes that write: subject ids stay distinct and every
progress row keeps referring to a row of `users`, after a quiz submission,
after an award and after a registration. -/
theorem key_constraints_kept (db : Db) (hpk : db.subjectKeysUnique)
    (hfk : db.progressRefersToUsers) :
    (∀ pw, (seedDb pw).subjectKeysUnique ∧ (seedDb pw).progressRefersToUsers) ∧
    (∀ (sess : Session) (sid : Nat) (answers : String → Option String),
      ((postQuizSubmit db sess sid answers).dbAfter db).subjectKeysUnique ∧
      ((postQuizSubmit db sess sid answers).dbAfter db).progressRefersToUsers) ∧
    (∀ (sess : Session) (xp : Option String),
      ((postApiAward db sess xp).dbAfter db).subjectKeysUnique ∧
      ((postApiAward db sess xp).dbAfter db).progressRefersToUsers) ∧
    (∀ (hash : String → String) (body : RegisterBody) (location : String) (db1 : Db)
      (sess1 : Session), postRegister hash db body = .redirect location db1 sess1 →
      db1.subjectKeysUnique ∧ db1.progressRefersToUsers) := by
  refine ⟨?_, ?_, ?_, ?_⟩
  · intro pw
    constructor
    · show ([1, 2, 3, 4] : List Nat).Nodup
      decide
    · intro p hp
      simp only [seedDb, List.mem_cons, List.mem_singleton, List.not_mem_nil, or_false] at hp
      refine ⟨⟨2, "student1", pw, "Rama", "student", .int 50⟩, by simp [seedDb], ?_⟩
      rcases hp with rfl | rfl | rfl | rfl <;> rfl
  · intro sess sid answers
    cases hu : attachUser db sess with
    | none =>
      have : (postQuizSubmit db sess sid answers).dbAfter db = db := by
        unfold postQuizSubmit requireLogin
        split <;> simp [hu, Outcome.dbAfter]
      rw [this]
      exact ⟨hpk, hfk⟩
    | some user =>
      rw [submit_eq sid answers hu]
      exact ⟨hpk, progressRefersToUsers_updateProgress _ _ _ _
        (progressRefersToUsers_addXp _ _ _ hfk)⟩
  · intro sess xp
    have hcases : (postApiAward db sess xp).dbAfter db = db ∨
        (postApiAward db sess xp).dbAfter db = db.addXp (awardValue xp) ((attachUser db sess).map (·.id) |>.getD 0) := by
      unfold postApiAward requireLogin
      split
      · cases hu : attachUser db sess with
        | none => left; rfl
        | some user =>
          simp only [Option.map_some', Option.getD_some]
          split
          · right; rfl
          · left; rfl
      · left; rfl
    rcases hcases with h | h
    · rw [h]; exact ⟨hpk, hfk⟩
    · rw [h]; exact ⟨hpk, progressRefersToUsers_addXp _ _ _ hfk⟩
  · intro hash body location db1 sess1 hreg
    unfold postRegister at hreg
    split at hreg
    · split at hreg
      · cases hreg
      · split at hreg
        · cases hreg
        · simp only [RegisterResult.redirect.injEq] at hreg
          obtain ⟨_, rfl, _⟩ := hreg
          refine ⟨?_, progressRefersToUsers_register db _ _ _ _ hfk⟩
          unfold Db.subjectKeysUnique
          rw [subjects_register]
          exact hpk
    · cases hreg

/-- Witness of the kept constraints: the seeded database. -/
theorem key_constraints_kept_witness :
    (seedDb "").subjectKeysUnique ∧ (seedDb "").progressRefersToUsers ∧
    ((postQuizSubmit (seedDb "") ⟨some 2⟩ 1 scenarioAnswers).dbAfter (seedDb "")).progressRefersToUsers :=
  ⟨by decide, by decide,
   ((key_constraints_kept (seedDb "") (by decide) (by decide)).2.1 ⟨some 2⟩ 1 scenarioAnswers).2⟩

/-! ## Where `xp + ?` is exact -/

theorem roundHalfEven_of_dvd (p q : Nat) (hq : 0 < q) (h : q ∣ p) :
    roundHalfEven p q * q = p := by
  obtain ⟨m, rfl⟩ := h
  unfold roundHalfEven
  simp only [Nat.mul_mod_right, Nat.mul_zero]
  rw [if_pos hq, Nat.mul_div_cancel_left m hq, Nat.mul_comm]

theorem F64.round_exact (p e : Nat) (hlt : p < 2 ^ (e + 1)) (hdvd : 2 ^ (e - 52) ∣ p)
    (hfin : p < 2 ^ 1024 * F64.one) : F64.round p 1 = .fin p := by
  have hk : ilog2 (p / 1) - 52 ≤ e - 52 := by
    rw [Nat.div_one]
    exact Nat.sub_le_sub_right (ilog2_le _ _ hlt) 52
  have hd : 1 * 2 ^ (ilog2 (p / 1) - 52) ∣ p := by
    rw [Nat.one_mul]
    exact Nat.dvd_trans (pow_dvd_pow 2 hk) hdvd
  have hr : roundHalfEven p (1 * 2 ^ (ilog2 (p / 1) - 52)) * 2 ^ (ilog2 (p / 1) - 52) = p := by
    have := roundHalfEven_of_dvd p (1 * 2 ^ (ilog2 (p / 1) - 52))
      (Nat.mul_pos Nat.one_pos (pow_pos Nat.two_pos _)) hd
    rw [Nat.one_mul] at this ⊢
    exact this
  unfold F64.round
  simp only
  rw [hr, if_pos hfin]

theorem F64.ofNat_exact (n j : Nat) (hj : 52 ≤ j) (hj2 : j + 1 ≤ 1024) (hlt : n < 2 ^ (j + 1))
    (hdvd : 2 ^ (j - 52) ∣ n) : F64.ofNat n = .fin (n * F64.one) := by
  unfold F64.ofNat
  apply F64.round_exact (n * F64.one) (j + 1074)
  · rw [show j + 1074 + 1 = (j + 1) + 1074 from by omega, pow_add, ← F64.one_def]
    exact Nat.mul_lt_mul_of_pos_right hlt F64.one_pos
  · rw [show j + 1074 - 52 = (j - 52) + 1074 from by omega, pow_add, ← F64.one_def]
    exact Nat.mul_dvd_mul_right hdvd F64.one
  · have h1 : (2 : Nat) ^ (j + 1) ≤ 2 ^ 1024 := pow_le_pow_right₀ one_le_two hj2
    exact Nat.mul_lt_mul_of_pos_right (Nat.lt_of_lt_of_le hlt h1) F64.one_pos

theorem JSNum.ofInt_of_ofNat (v : Int) (h : F64.ofNat v.natAbs = .fin (v.natAbs * F64.one)) :
    JSNum.ofInt v = .int v := by
  unfold JSNum.ofInt
  rw [h]
  simp only [Nat.mul_div_cancel _ F64.one_pos, JSNum.int.injEq]
  split <;> omega

/-- An integer of magnitude at most `2 ^ 53` is a double. -/
theorem JSNum.ofInt_exact (v : Int) (h1 : -9007199254740992 ≤ v) (h2 : v ≤ 9007199254740992) :
    JSNum.ofInt v = .int v := by
  apply JSNum.ofInt_of_ofNat
  have h53 : (2 : Nat) ^ 53 = 9007199254740992 := by norm_num
  by_cases hlt : v.natAbs < 9007199254740992
  · exact F64.ofNat_exact _ 52 (Nat.le_refl _) (by omega) (by rw [h53]; exact hlt)
      (by simp)
  · have heq : v.natAbs = 2 ^ 53 := by omega
    rw [heq]
    exact F64.ofNat_exact _ 53 (by omega) (by omega)
      (pow_lt_pow_right₀ Nat.one_lt_two (Nat.lt_succ_self 53)) (pow_dvd_pow 2 (by omega))

/-- An even integer of magnitude below `2 ^ 54` is a double. -/
theorem JSNum.ofInt_exact_even (v : Int) (h1 : -18014398509481984 < v)
    (h2 : v < 18014398509481984) (hev : (2 : Int) ∣ v) : JSNum.ofInt v = .int v := by
  apply JSNum.ofInt_of_ofNat
  have h54 : (2 : Nat) ^ (53 + 1) = 18014398509481984 := by norm_num
  apply F64.ofNat_exact _ 53 (by omega) (by omega)
  · rw [h54]; omega
  · show 2 ^ 1 ∣ v.natAbs
    rw [pow_one]
    omega

theorem bindNumber_int (v : Int) :
    bindNumber (.int v) =
      if -2147483648 ≤ v ∧ v ≤ 2147483647 then SqlNum.int v else SqlNum.real v := rfl

theorem SqlNum.add_int_int (x y : Int) :
    (SqlNum.int x).add (.int y) =
      if -9223372036854775808 ≤ x + y ∧ x + y ≤ 9223372036854775807 then .int (x + y)
      else SqlNum.ofDouble ((JSNum.ofInt x).addDouble (JSNum.ofInt y)) := rfl

theorem SqlNum.add_int_real (x v : Int) :
    (SqlNum.int x).add (.real v) = SqlNum.ofDouble ((JSNum.ofInt x).addDouble (.int v)) := rfl

theorem SqlNum.add_real_int (v y : Int) :
    (SqlNum.real v).add (.int y) = SqlNum.ofDouble ((JSNum.int v).addDouble (JSNum.ofInt y)) :=
  rfl

theorem SqlNum.add_inf_int (s : Bool) (y : Int) :
    (SqlNum.inf s).add (.int y) = SqlNum.ofDouble ((JSNum.inf s).addDouble (JSNum.ofInt y)) :=
  rfl

theorem JSNum.addDouble_int_int (a b : Int) :
    (JSNum.int a).addDouble (.int b) = JSNum.ofInt (a + b) := rfl

theorem SqlNum.storeInteger_real (v : Int) :
    (SqlNum.real v).storeInteger =
      if -9223372036854775808 < v ∧ v < 9223372036854775807 then .int v else .real v := rfl

/-- Inside the range of the exactly represented integers `xp + ?` is the
sum: from a stored INTEGER `x` and a bound integer `v`, with `x` and `x + v` of
magnitude at most `2 ^ 53`, the column holds the INTEGER `x + v` afterwards. -/
theorem xp_add_exact (x v : Int) (hx1 : -9007199254740992 ≤ x) (hx2 : x ≤ 9007199254740992)
    (hs1 : -9007199254740992 ≤ x + v) (hs2 : x + v ≤ 9007199254740992) :
    ((SqlNum.int x).add (bindNumber (.int v))).storeInteger = .int (x + v) := by
  rw [bindNumber_int]
  by_cases h32 : -2147483648 ≤ v ∧ v ≤ 2147483647
  · rw [if_pos h32, SqlNum.add_int_int, if_pos (by omega)]
    rfl
  · rw [if_neg h32, SqlNum.add_int_real, JSNum.ofInt_exact x hx1 hx2, JSNum.addDouble_int_int,
      JSNum.ofInt_exact (x + v) hs1 hs2]
    show (SqlNum.real (x + v)).storeInteger = _
    rw [SqlNum.storeInteger_real, if_pos (by omega)]

/-- Adding the number `0` leaves every stored value as it is. -/
theorem xp_add_zero (a : SqlNum) (h : a.Stored) :
    (a.add (bindNumber (JSNum.ofInt 0))).storeInteger = a := by
  have h0 : JSNum.ofInt 0 = .int 0 := JSNum.ofInt_exact 0 (by omega) (by omega)
  have hb : bindNumber (.int 0) = .int 0 := by
    rw [bindNumber_int, if_pos (by omega)]
  rw [h0, hb]
  cases a with
  | null => rfl
  | int x =>
    have hx : -9223372036854775808 ≤ x ∧ x ≤ 9223372036854775807 := h
    rw [SqlNum.add_int_int, Int.add_zero, if_pos hx]
    rfl
  | real v =>
    have hv : JSNum.ofInt v = .int v ∧
        ¬(-9223372036854775808 < v ∧ v < 9223372036854775807) := h
    rw [SqlNum.add_real_int, h0, JSNum.addDouble_int_int, Int.add_zero, hv.1]
    show (SqlNum.real v).storeInteger = _
    rw [SqlNum.storeInteger_real, if_neg hv.2]
  | inf s =>
    rw [SqlNum.add_inf_int, h0]
    rfl

/-- The number `correct * 10` of the submit handler is a double as long as the
new score stays within `2 ^ 53` of a score that is not below `-2 ^ 53`. -/
theorem ofInt_gain (x : Int) (c : Nat) (hx : -9007199254740992 ≤ x)
    (hs : x + ((c * 10 : Nat) : Int) ≤ 9007199254740992) :
    JSNum.ofInt ((c * 10 : Nat) : Int) = .int ((c * 10 : Nat) : Int) := by
  apply JSNum.ofInt_exact_even
  · omega
  · omega
  · exact ⟨(c : Int) * 5, by push_cast; ring⟩

/-! ## The score after a submission and after an award -/

/-- C2, the claim fails at a large score: after `student1` of the seeded
database was awarded `10 ^ 21`, the column `xp` holds the REAL `1e21`; a
submission with one correct answer then computes `xpGain = 10`, and the
database afterwards differs from the one before in the progress row only: the
score is still `1e21`, not `1e21 + 10`. -/
theorem submit_at_large_score_adds_nothing :
    (awardedDb.userById 2).map (·.xp) = some (.real 1000000000000000000000) ∧
    postQuizSubmit awardedDb ⟨some 2⟩ 1 scenarioAnswers =
      .ok (⟨⟨2, "student1", "Rama", "student", some (.int 1000000000000000000000)⟩, 1, 1, 2, 10⟩,
        { awardedDb with
          user_progress :=
            [ ⟨1, 2, 1, .int 50⟩, ⟨2, 2, 2, .int 10⟩, ⟨3, 2, 3, .int 20⟩, ⟨4, 2, 4, .int 30⟩ ] }) ∧
    (((postQuizSubmit awardedDb ⟨some 2⟩ 1 scenarioAnswers).dbAfter awardedDb).userById 2).map
      (·.xp) = some (.real 1000000000000000000000) := by
  set_option exponentiation.threshold 3000 in
  set_option maxRecDepth 100000 in
  decide

/-- C2 as amended: for a logged-in user the submit handler computes
`xpGain = 10 * correct` and adds it to the user's score with the arithmetic of
the store. When the score is a stored integer `x` with `-2 ^ 53 ≤ x` and
`x + xpGain ≤ 2 ^ 53`, the row afterwards holds exactly `x + xpGain` and is
otherwise as it was. With no correct answer the gain is `0` and the row is
unchanged, whatever value it holds. On the seeded Mathematics quiz one right
and one wrong selection give `correct = 1`, `xpGain = 10`, a score of `60` and
a progress of `50`. -/
theorem submit_awards_ten_per_correct (db : Db) (sess : Session) (sid : Nat)
    (answers : String → Option String) (user : ReqUser) (h : attachUser db sess = some user) :
    (∃ r db1, postQuizSubmit db sess sid answers = .ok (r, db1) ∧
      r.correct = gradeRows answers (db.quizzesOf sid) ∧
      r.xpGain = 10 * r.correct ∧
      (∀ (row : User) (x : Int), db.userById user.id = some row → row.xp = .int x →
        -9007199254740992 ≤ x → x + r.xpGain ≤ 9007199254740992 →
        db1.userById user.id = some { row with xp := .int (x + r.xpGain) }) ∧
      (r.correct = 0 → r.xpGain = 0 ∧
        ∀ row : User, db.userById user.id = some row → row.xp.Stored →
          db1.userById user.id = some row)) ∧
    postQuizSubmit (seedDb "") ⟨some 2⟩ 1 scenarioAnswers =
      .ok (⟨⟨2, "student1", "Rama", "student", some (.int 50)⟩, 1, 1, 2, 10⟩,
        { seedDb "" with
          users :=
            [ ⟨1, "teacher1", "", "Mrs. Smith", "teacher", .int 200⟩,
              ⟨2, "student1", "", "Rama", "student", .int 60⟩ ]
          user_progress :=
            [ ⟨1, 2, 1, .int 50⟩, ⟨2, 2, 2, .int 10⟩, ⟨3, 2, 3, .int 20⟩, ⟨4, 2, 4, .int 30⟩ ] }) := by
  constructor
  · refine ⟨_, _, submit_eq sid answers h, rfl, by simp [Nat.mul_comm], ?_, ?_⟩
    · intro row x hrow hx hlo hhi
      simp only at hhi
      rw [userById_updateProgress, userById_addXp db _ user.id row hrow, hx,
        ofInt_gain x _ hlo hhi, xp_add_exact x _ hlo (by omega) (by omega) hhi]
    · intro h0
      simp only at h0
      refine ⟨by simp [h0], ?_⟩
      intro row hrow hst
      rw [userById_updateProgress, userById_addXp db _ user.id row hrow, h0]
      simp only [Nat.zero_mul, Nat.cast_zero]
      rw [xp_add_zero row.xp hst]
  · exact postQuizSubmit_seed_student

/-- Witness of C2 as amended on the seeded database: `student1`, whose row
holds the score `50`, submits `scenarioAnswers` to the Mathematics quiz; the
gain is `10` and the row afterwards holds `60`. -/
theorem submit_awards_ten_per_correct_witness :
    attachUser (seedDb "") ⟨some 2⟩ = some ⟨2, "student1", "Rama", "student", some (.int 50)⟩ ∧
    ∃ r db1, postQuizSubmit (seedDb "") ⟨some 2⟩ 1 scenarioAnswers = .ok (r, db1) ∧
      r.correct = 1 ∧ r.xpGain = 10 ∧
      db1.userById 2 = some ⟨2, "student1", "", "Rama", "student", .int 60⟩ := by
  obtain ⟨r, db1, h1, _, _, h4, _⟩ :=
    (submit_awards_ten_per_correct (seedDb "") ⟨some 2⟩ 1 scenarioAnswers
      ⟨2, "student1", "Rama", "student", some (.int 50)⟩ attachUser_seed_student).1
  have er := (Prod.mk.inj (Outcome.ok.inj (h1.symm.trans postQuizSubmit_seed_student))).1
  have hc : r.correct = 1 := by rw [er]
  have hg : r.xpGain = 10 := by rw [er]
  have h5 := h4 ⟨2, "student1", "", "Rama", "student", .int 50⟩ 50 (by decide) rfl
    (by omega) (by rw [hg]; omega)
  rw [hg] at h5
  exact ⟨attachUser_seed_student, r, db1, h1, hc, hg, h5⟩

/-- C5 as amended: for a logged-in user whose row holds an integer score `x`
of magnitude at most `2 ^ 53`, the submit handler leaves the score
`x + xpGain`, which is at least `x`, as long as that is at most `2 ^ 53`; the
award handler adds `parseInt(xp) || 0` with no check of its sign: when that
value is the integer `v` and `x + v` is of magnitude at most `2 ^ 53`, the
score afterwards is `x + v`, the response reports it, and the score has not
decreased exactly when `0 ≤ v`. -/
theorem score_after_submit_and_award (db : Db) (sess : Session) (user : ReqUser) (row : User)
    (x : Int) (h : attachUser db sess = some user) (hrow : db.userById user.id = some row)
    (hx : row.xp = .int x) (hlo : -9007199254740992 ≤ x) (hhi : x ≤ 9007199254740992) :
    (∀ (sid : Nat) (answers : String → Option String),
      ∃ r db1, postQuizSubmit db sess sid answers = .ok (r, db1) ∧
        (x + r.xpGain ≤ 9007199254740992 →
          db1.userById user.id = some { row with xp := .int (x + r.xpGain) } ∧
          x ≤ x + r.xpGain)) ∧
    (∀ (xp : Option String) (v : Int), awardValue xp = .int v →
      -9007199254740992 ≤ x + v → x + v ≤ 9007199254740992 →
      ∃ db1, postApiAward db sess xp = .ok (⟨true, some (.int (x + v))⟩, db1) ∧
        db1.userById user.id = some { row with xp := .int (x + v) } ∧
        (x ≤ x + v ↔ 0 ≤ v)) := by
  constructor
  · intro sid answers
    refine ⟨_, _, submit_eq sid answers h, ?_⟩
    intro hs
    simp only at hs
    refine ⟨?_, by omega⟩
    rw [userById_updateProgress, userById_addXp db _ user.id row hrow, hx,
      ofInt_gain x _ hlo hs, xp_add_exact x _ hlo hhi (by omega) hs]
  · intro xp v hv hs1 hs2
    have hrow1 := userById_addXp db (awardValue xp) user.id row hrow
    rw [hv, hx, xp_add_exact x v hlo hhi hs1 hs2] at hrow1
    refine ⟨db.addXp (awardValue xp) user.id, ?_, ?_, by omega⟩
    · rw [hv]
      simp only [postApiAward, requireLogin, loggedIn_of_attachUser h, if_true, h, hv, hrow1,
        SqlNum.toJS, JSNum.ofInt_exact (x + v) hs1 hs2]
    · rw [hv]
      exact hrow1

/-- Witness of C5 as amended: `student1` of the seeded database, score `50`. -/
theorem score_after_submit_and_award_witness :
    attachUser (seedDb "") ⟨some 2⟩ = some ⟨2, "student1", "Rama", "student", some (.int 50)⟩ ∧
    (seedDb "").userById 2 = some ⟨2, "student1", "", "Rama", "student", .int 50⟩ ∧
    (∀ (sid : Nat) (answers : String → Option String),
      ∃ r db1, postQuizSubmit (seedDb "") ⟨some 2⟩ sid answers = .ok (r, db1) ∧
        (50 + (r.xpGain : Int) ≤ 9007199254740992 →
          db1.userById 2 = some ⟨2, "student1", "", "Rama", "student", .int (50 + r.xpGain)⟩ ∧
          (50 : Int) ≤ 50 + r.xpGain)) ∧
    (∀ (xp : Option String) (v : Int), awardValue xp = .int v →
      -9007199254740992 ≤ 50 + v → 50 + v ≤ 9007199254740992 →
      ∃ db1, postApiAward (seedDb "") ⟨some 2⟩ xp = .ok (⟨true, some (.int (50 + v))⟩, db1) ∧
        db1.userById 2 = some ⟨2, "student1", "", "Rama", "student", .int (50 + v)⟩ ∧
        ((50 : Int) ≤ 50 + v ↔ 0 ≤ v)) :=
  ⟨attachUser_seed_student, by decide,
   score_after_submit_and_award (seedDb "") ⟨some 2⟩
    ⟨2, "student1", "Rama", "student", some (.int 50)⟩
    ⟨2, "student1", "", "Rama", "student", .int 50⟩ 50
    attachUser_seed_student (by decide) rfl (by omega) (by omega)⟩

theorem userById_addXp_of (db : Db) (value : JSNum) (userId : Nat) (u : User) (a : SqlNum)
    (h : db.userById userId = some u) (ha : u.xp = a) :
    (db.addXp value userId).userById userId =
      some { u with xp := (a.add (bindNumber value)).storeInteger } := by
  subst ha
  exact userById_addXp db value userId u h

theorem userById_addXp_updateProgress (db : Db) (progress value : JSNum) (u s i j : Nat) :
    ((db.updateProgress progress u s).addXp value i).userById j =
      (db.addXp value i).userById j := rfl

theorem attachUser_submit {db : Db} {sess : Session} {user : ReqUser}
    (h : attachUser db sess = some user) (value : JSNum) (progress : JSNum) (sid : Nat) :
    ∃ user1 : ReqUser,
      attachUser ((db.addXp value user.id).updateProgress progress user.id sid) sess =
        some user1 ∧ user1.id = user.id := by
  obtain ⟨_, row, hrow, hu⟩ := row_of_attachUser h
  refine ⟨User.toReqUser { row with xp := (row.xp.add (bindNumber value)).storeInteger }, ?_, ?_⟩
  · rw [attachUser_eq_userById h, userById_updateProgress, userById_addXp db value user.id row hrow]
    rfl
  · rw [← hu]
    rfl

/-- C6 as amended: when a logged-in user submits the same answers twice in a
row, the second grading counts the same answers correct, leaves the progress
table exactly as the first left it, and adds `xpGain` to the score once more:
from a stored integer score `x` with `-2 ^ 53 ≤ x` and
`x + xpGain + xpGain ≤ 2 ^ 53` the score is `x + xpGain` after the first
grading and `x + xpGain + xpGain` after the second, which is more than after
the first exactly when at least one answer is correct. -/
theorem submit_twice (db : Db) (sess : Session) (sid : Nat)
    (answers : String → Option String) (user : ReqUser) (h : attachUser db sess = some user) :
    ∃ r1 db1 r2 db2,
      postQuizSubmit db sess sid answers = .ok (r1, db1) ∧
      postQuizSubmit db1 sess sid answers = .ok (r2, db2) ∧
      r2.correct = r1.correct ∧ r2.xpGain = r1.xpGain ∧
      db2.user_progress = db1.user_progress ∧
      db2.progressOf user.id sid = db1.progressOf user.id sid ∧
      ∀ (row : User) (x : Int), db.userById user.id = some row → row.xp = .int x →
        -9007199254740992 ≤ x → x + r1.xpGain + r1.xpGain ≤ 9007199254740992 →
        db1.userById user.id = some { row with xp := .int (x + r1.xpGain) } ∧
        db2.userById user.id = some { row with xp := .int (x + r1.xpGain + r1.xpGain) } ∧
        (x + r1.xpGain < x + r1.xpGain + r1.xpGain ↔ 0 < r1.correct) := by
  obtain ⟨user1, h1, hid⟩ := attachUser_submit h
    (JSNum.ofInt ((gradeRows answers (db.quizzesOf sid) * 10 : Nat) : Int))
    (progressPercent (gradeRows answers (db.quizzesOf sid))
      (if (db.quizzesOf sid).length = 0 then 1 else (db.quizzesOf sid).length)) sid
  have hprog : ∀ (d : Db) (v : JSNum) (pr : JSNum),
      (((d.updateProgress pr user.id sid).addXp v user.id).updateProgress pr user.id sid).user_progress =
        (d.updateProgress pr user.id sid).user_progress := fun d v pr =>
    updateProgress_updateProgress d pr user.id sid
  have e2 := submit_eq sid answers h1
  rw [hid] at e2
  simp only [quizzesOf_updateProgress, quizzesOf_addXp] at e2
  refine ⟨_, _, _, _, submit_eq sid answers h, e2, rfl, rfl, ?_, ?_, ?_⟩
  · exact hprog _ _ _
  · simp only [Db.progressOf]
    exact congrArg _ (hprog _ _ _)
  · intro row x hrow hx hlo hhi
    simp only at hhi
    have hg : (0 : Int) ≤ ((gradeRows answers (db.quizzesOf sid) * 10 : Nat) : Int) :=
      Int.ofNat_nonneg _
    have hrow1 : (db.addXp (JSNum.ofInt ((gradeRows answers (db.quizzesOf sid) * 10 : Nat) : Int))
        user.id).userById user.id =
        some { row with
          xp := .int (x + ((gradeRows answers (db.quizzesOf sid) * 10 : Nat) : Int)) } := by
      rw [userById_addXp db _ user.id row hrow, hx, ofInt_gain x _ hlo (by omega),
        xp_add_exact x _ hlo (by omega) (by omega) (by omega)]
    refine ⟨?_, ?_, ?_⟩
    · rw [userById_updateProgress]
      exact hrow1
    · rw [userById_updateProgress, userById_addXp_updateProgress]
      have hrow2 := userById_addXp_of _
        (JSNum.ofInt ((gradeRows answers (db.quizzesOf sid) * 10 : Nat) : Int)) user.id _
        (.int (x + ((gradeRows answers (db.quizzesOf sid) * 10 : Nat) : Int))) hrow1 rfl
      have hge := ofInt_gain x (gradeRows answers (db.quizzesOf sid)) hlo (by omega)
      rw [hge] at hrow2 ⊢
      rw [xp_add_exact _ _ (by omega) (by omega) (by omega) (by omega)] at hrow2
      exact hrow2
    · simp only
      omega

/-- Witness of C6 as amended: `student1` of the seeded database, score `50`,
submits `scenarioAnswers` to the Mathematics quiz twice; both gradings count
one answer correct, the progress table is the same after both, and the score
is `60` after the first and `70` after the second. -/
theorem submit_twice_witness :
    attachUser (seedDb "") ⟨some 2⟩ = some ⟨2, "student1", "Rama", "student", some (.int 50)⟩ ∧
    ∃ r1 db1 r2 db2,
      postQuizSubmit (seedDb "") ⟨some 2⟩ 1 scenarioAnswers = .ok (r1, db1) ∧
      postQuizSubmit db1 ⟨some 2⟩ 1 scenarioAnswers = .ok (r2, db2) ∧
      r1.correct = 1 ∧ r2.correct = 1 ∧
      db2.user_progress = db1.user_progress ∧
      db1.userById 2 = some ⟨2, "student1", "", "Rama", "student", .int 60⟩ ∧
      db2.userById 2 = some ⟨2, "student1", "", "Rama", "student", .int 70⟩ := by
  obtain ⟨r1, db1, r2, db2, h1, h2, hc, _, hp, _, hx⟩ :=
    submit_twice (seedDb "") ⟨some 2⟩ 1 scenarioAnswers
      ⟨2, "student1", "Rama", "student", some (.int 50)⟩ attachUser_seed_student
  have er := (Prod.mk.inj (Outcome.ok.inj (h1.symm.trans postQuizSubmit_seed_student))).1
  have hc1 : r1.correct = 1 := by rw [er]
  have hg1 : r1.xpGain = 10 := by rw [er]
  obtain ⟨a, b, _⟩ := hx ⟨2, "student1", "", "Rama", "student", .int 50⟩ 50 (by decide) rfl
    (by omega) (by rw [hg1]; omega)
  rw [hg1] at a b
  exact ⟨attachUser_seed_student, r1, db1, r2, db2, h1, h2, hc1, hc.trans hc1, hp, a, b⟩

/-- The arithmetic of `xp + ?` beyond the exactly representable range: the sum
of the INTEGER `51` and the number `2 ^ 53` is the double `9007199254741044`,
stored as an INTEGER; `50` plus `10 ^ 21` is stored as the REAL `1e21`, which
neither `10` nor `-5` changes; and `2 ^ 63 - 8` plus `10` leaves the 64-bit
integers and is stored as the REAL `2 ^ 63`. -/
theorem addXp_rounds_outside_exact_range :
    ((SqlNum.int 51).add (bindNumber (.int 9007199254740992))).storeInteger =
      .int 9007199254741044 ∧
    ((SqlNum.int 50).add (bindNumber (.int 1000000000000000000000))).storeInteger =
      .real 1000000000000000000000 ∧
    ((SqlNum.real 1000000000000000000000).add (bindNumber (.int 10))).storeInteger =
      .real 1000000000000000000000 ∧
    ((SqlNum.real 1000000000000000000000).add (bindNumber (.int (-5)))).storeInteger =
      .real 1000000000000000000000 ∧
    ((SqlNum.int 9223372036854775800).add (bindNumber (.int 10))).storeInteger =
      .real 9223372036854775808 ∧
    postApiAward awardedDb ⟨some 2⟩ (some "-5") =
      .ok (⟨true, some (.int 1000000000000000000000)⟩, awardedDb) := by
  set_option exponentiation.threshold 3000 in
  set_option maxRecDepth 100000 in
  decide

theorem gradeRows_seed_scenario :
    gradeRows scenarioAnswers ((seedDb "").quizzesOf 1) = 1 := by
  set_option exponentiation.threshold 3000 in
  set_option maxRecDepth 100000 in
  decide

/-- Within the 64-bit integers the submit handler adds exactly: when the row
of the logged-in user holds the INTEGER `x`, the gain `correct * 10` fits 32
bits (so that the driver binds it as an INTEGER) and `x + correct * 10` does
not exceed `2 ^ 63 - 1`, the row afterwards holds the INTEGER
`x + correct * 10`. -/
theorem submit_adds_gain_to_integer_score (db : Db) (sess : Session) (sid : Nat)
    (answers : String → Option String) (user : ReqUser) (row : User) (x : Int)
    (h : attachUser db sess = some user) (hrow : db.userById user.id = some row)
    (hx : row.xp = .int x)
    (hg : gradeRows answers (db.quizzesOf sid) * 10 ≤ 2147483647)
    (hlo : -9223372036854775808 ≤ x)
    (hhi : x + ((gradeRows answers (db.quizzesOf sid) * 10 : Nat) : Int) ≤ 9223372036854775807) :
    ((postQuizSubmit db sess sid answers).dbAfter db).userById user.id =
      some { row with
        xp := .int (x + ((gradeRows answers (db.quizzesOf sid) * 10 : Nat) : Int)) } := by
  rw [submit_eq sid answers h]
  show (Db.updateProgress _ _ _ _).userById _ = _
  rw [userById_updateProgress, userById_addXp db _ user.id row hrow, hx,
    JSNum.ofInt_exact _ (by omega) (by omega), bindNumber_int, if_pos ⟨by omega, by omega⟩,
    SqlNum.add_int_int, if_pos ⟨by omega, hhi⟩]
  rfl

/-- The seeded `student1` (score `50`) submitting `scenarioAnswers`. -/
theorem submit_adds_gain_to_integer_score_witness :
    attachUser (seedDb "") ⟨some 2⟩ =
      some ⟨2, "student1", "Rama", "student", some (.int 50)⟩ ∧
    gradeRows scenarioAnswers ((seedDb "").quizzesOf 1) * 10 ≤ 2147483647 ∧
    ((postQuizSubmit (seedDb "") ⟨some 2⟩ 1 scenarioAnswers).dbAfter (seedDb "")).userById 2 =
      some ⟨2, "student1", "", "Rama", "student",
        .int (50 + ((gradeRows scenarioAnswers ((seedDb "").quizzesOf 1) * 10 : Nat) : Int))⟩ :=
  ⟨attachUser_seed_student, by rw [gradeRows_seed_scenario]; decide,
   submit_adds_gain_to_integer_score (seedDb "") ⟨some 2⟩ 1 scenarioAnswers
    ⟨2, "student1", "Rama", "student", some (.int 50)⟩
    ⟨2, "student1", "", "Rama", "student", .int 50⟩ 50
    attachUser_seed_student (by decide) rfl (by rw [gradeRows_seed_scenario]; decide)
    (by omega) (by rw [gradeRows_seed_scenario]; decide)⟩

end GamefiedLearning
